import Mathlib

/-!
# Cytotoxic Cataclysm: effects system and world update loop

A shallow embedding of `src/sub_systems/effects_system.cpp` and of
`step` / `handle_collisions` from `src/world_system.cpp`.

Conventions of the embedding.

* C++ `float` values are exact rationals (`ℚ`); no rounding is modelled.
* The entity-component registry is explicit state: each component container
  the code touches is one field of a record.
* `assert(false)` in `getEffect` aborts the call: fallible code runs in
  `Except Err`.
* Lambdas stored in `TimedEvent::callback` are defunctionalised: one
  constructor of `Callback` per lambda, carrying the captured values.
* The random engine is an input: the uniform draw and the stream of draws of
  the discrete distribution are given by the caller of the model.
* Constants declared in headers that are not part of the sources
  (`POS_PROB`, `MAX_HEALTH`, `cyst_neg_start`, ...) are fields of `Constants`.
-/

namespace Cytotoxic

/-! ## Shared basic types -/

/-- The glm `vec2` with rational components. -/
structure Vec2 where
  x : ℚ
  y : ℚ
deriving DecidableEq

/-- The glm `vec4` with rational components. -/
structure Vec4 where
  r : ℚ
  g : ℚ
  b : ℚ
  a : ℚ
deriving DecidableEq

namespace Vec2

/-- Component-wise difference `a - b`. -/
def sub (a b : Vec2) : Vec2 := ⟨a.x - b.x, a.y - b.y⟩

/-- Unary minus `-a`. -/
def neg (a : Vec2) : Vec2 := ⟨-a.x, -a.y⟩

/-- Scalar multiple `k * a`. -/
def smul (k : ℚ) (a : Vec2) : Vec2 := ⟨k * a.x, k * a.y⟩

/-- The glm `dot` product. -/
def dot (a b : Vec2) : ℚ := a.x * b.x + a.y * b.y

end Vec2

/-- Entity handles of the registry. -/
abbrev Entity := Nat

/-- A `Mix_Chunk*` handle. -/
abbrev Chunk := Nat

/-- Library functions of glm and libm that need square roots or
trigonometry; they are parameters of the model. -/
structure Glm where
  normalize : Vec2 → Vec2
  length : Vec2 → ℚ
  atan2 : ℚ → ℚ → ℚ
  M_PI : ℚ

/-- Ways a call of the model can fail to produce a state. -/
inductive Err where
  | assertion
  | draws_exhausted
deriving DecidableEq, Repr

/-! ## Effects system: data -/

/-- The enum `CYST_EFFECT_ID`, as its underlying integer.
Modelled from the spec: the declaration is in `components.hpp`, which is not
among the sources; the order is the one of the spec's list of effect ids and
of the `switch` in `apply_random_effect`, with `EFFECT_COUNT` last. -/
abbrev CYST_EFFECT_ID := Nat

namespace CYST_EFFECT_ID
abbrev DAMAGE : CYST_EFFECT_ID := 0
abbrev HEAL : CYST_EFFECT_ID := 1
abbrev CLEAR_SCREEN : CYST_EFFECT_ID := 2
abbrev SLOW : CYST_EFFECT_ID := 3
abbrev FOV : CYST_EFFECT_ID := 4
abbrev DIRECTION : CYST_EFFECT_ID := 5
abbrev NO_ATTACK : CYST_EFFECT_ID := 6
abbrev EFFECT_COUNT : CYST_EFFECT_ID := 7
end CYST_EFFECT_ID

open CYST_EFFECT_ID

/-- The enum `EFFECT_TYPE`. -/
inductive EFFECT_TYPE where
  | POSITIVE
  | NEGATIVE
deriving DecidableEq, Repr

open EFFECT_TYPE

/-- One entry of the `effects` table. -/
structure Effect where
  id : CYST_EFFECT_ID
  type : EFFECT_TYPE
  is_active : Bool
deriving DecidableEq, Repr

/-- The player's `Weapon` component. -/
structure Weapon where
  damage : ℚ
  attack_delay : ℚ
  attack_timer : ℚ
  bullet_speed : ℚ
  size : Vec2
  color : Vec4
deriving DecidableEq

/-- The fields of the player's `Motion` component that effects touch. -/
structure PlayerMotion where
  acceleration_unit : ℚ
  max_velocity : ℚ
deriving DecidableEq

/-- An enemy as `handle_clear_screen` sees it: its entity, whether its type
is `ENEMY_ID::BOSS`, and the position of its transform. -/
structure Enemy where
  entity : Entity
  is_boss : Bool
  position : Vec2
deriving DecidableEq

/-- The lambdas stored in a `TimedEvent`, with their captures. -/
inductive Callback where
  /-- The lambda of `handle_damage_effect`. -/
  | damage_restore (prev_damage prev_speed : ℚ) (prev_size : Vec2) (prev_color : Vec4)
  /-- The lambda of `handle_slow_effect`. -/
  | slow_restore (prev_acceleration prev_max_velocity : ℚ)
  /-- The lambda of `handle_fov_effect`. -/
  | fov_restore (prev_volume : Int)
  /-- The lambda of `handle_direction_effect`. -/
  | direction_restore
  /-- The lambda of `handle_no_attack_effect`. -/
  | no_attack_restore (prev_sound : Chunk)
  /-- The lambda of `setActiveTimer`. -/
  | set_inactive (id : CYST_EFFECT_ID)
deriving DecidableEq

/-- The `TimedEvent` component. -/
structure TimedEvent where
  timer_ms : ℚ
  callback : Callback
deriving DecidableEq

/-- Constants of headers that are not among the sources. `DEFAULT_TIMER` is
the default member initialiser of `TimedEvent::timer_ms`. -/
structure Constants where
  POS_PROB : ℚ
  MAX_HEALTH : ℚ
  cyst_neg_start : Nat
  cyst_effect_count : Nat
  DAMAGE_MULTIPLIER : ℚ
  ATTACK_DELAY_MULTIPLIER : ℚ
  BULLET_SPEED_MULTIPLIER : ℚ
  BULLET_SIZE_MULTIPLIER : ℚ
  DAMAGE_BUFF_PROJECTILE_COLOR : Vec4
  DAMAGE_EFFECT_TIME : ℚ
  ATTACK_DELAY : ℚ
  NO_ATTACK_TIME : ℚ
  SCREEN_RADIUS : ℚ
  DEFAULT_TIMER : ℚ

/-- The state `EffectsSystem` reads and writes: its own members and the
registry components of the player, the screen, the camera and the enemies.
`played` logs the chunks passed to `Mix_PlayChannel`, `icons` the ids passed
to `displayEffect`, `dying` the entities passed to `startEntityDeath`. -/
structure Game where
  effects : List Effect
  timedEvents : List TimedEvent
  health : ℚ
  weapon : Weapon
  motion : PlayerMotion
  limit_fov : Bool
  volume : Int
  soundChunks : String → Chunk
  played : List Chunk
  icons : List CYST_EFFECT_ID
  enemies : List Enemy
  camera : Vec2
  dying : List Entity

/-- The random engine as seen by one call of `apply_random_effect`: the
uniform draw in `[0,1)` and the successive draws of `effect_dist`. -/
structure Rng where
  prob : ℚ
  draws : List Nat

/-! ## Effects system: helpers -/

/-- Embeds `getEffect(id)`: the first entry with this id; the assertion fails when
there is none. -/
def getEffect : List Effect → CYST_EFFECT_ID → Except Err Effect
  | [], _ => .error .assertion
  | e :: es, id => if e.id = id then .ok e else getEffect es id

/-- The assignment `getEffect(id).is_active = b`. -/
def setIsActive : List Effect → CYST_EFFECT_ID → Bool → Except Err (List Effect)
  | [], _, _ => .error .assertion
  | e :: es, id, b =>
    if e.id = id then .ok ({ e with is_active := b } :: es)
    else (setIsActive es id b).map (fun es' => e :: es')

/-- Embeds `countActivePositive()`. -/
def countActivePositive (effects : List Effect) : Nat :=
  effects.countP (fun e => e.is_active && decide (e.type = POSITIVE))

/-- Embeds `countActiveNegative()`. -/
def countActiveNegative (effects : List Effect) : Nat :=
  effects.countP (fun e => e.is_active && decide (e.type = NEGATIVE))

/-- Embeds `Mix_PlayChannel(-1, chunk, 0)`. -/
def Mix_PlayChannel (chunk : Chunk) (s : Game) : Game :=
  { s with played := s.played ++ [chunk] }

/-- Embeds `Mix_Volume(-1, v)` of SDL_mixer: a negative `v` only queries, other
values are set, capped at `MIX_MAX_VOLUME = 128`. -/
def Mix_Volume (v : Int) (s : Game) : Game :=
  if v < 0 then s else { s with volume := min v 128 }

/-- Embeds `playSound(id)`. -/
def playSound (id : CYST_EFFECT_ID) (s : Game) : Except Err Game :=
  if id = EFFECT_COUNT then
    .ok (Mix_PlayChannel (s.soundChunks "cyst_empty") s)
  else do
    let e ← getEffect s.effects id
    if e.type = POSITIVE then
      pure (Mix_PlayChannel (s.soundChunks "cyst_pos") s)
    else if e.type = NEGATIVE then
      pure (Mix_PlayChannel (s.soundChunks "cyst_neg") s)
    else
      pure s

/-- Embeds `displayEffect(entity, id)`: registers the icon of `id` for rendering. -/
def displayEffect (id : CYST_EFFECT_ID) (s : Game) : Game :=
  { s with icons := s.icons ++ [id] }

/-- Embeds `setActiveTimer(id, timer)`. -/
def setActiveTimer (K : Constants) (id : CYST_EFFECT_ID) (timer : ℚ) (s : Game) :
    Except Err Game := do
  let effects ← setIsActive s.effects id true
  let timer_ms := if timer ≥ 0 then timer else K.DEFAULT_TIMER
  pure { s with effects := effects,
                timedEvents := s.timedEvents ++ [⟨timer_ms, .set_inactive id⟩] }

/-! ## Effects system: handlers -/

/-- Embeds `handle_damage_effect()`. -/
def handle_damage_effect (K : Constants) (s : Game) : Game :=
  let weapon := s.weapon
  let prev_damage := weapon.damage
  let weapon := { weapon with damage := weapon.damage * K.DAMAGE_MULTIPLIER }
  let weapon := { weapon with attack_delay := weapon.attack_delay * K.ATTACK_DELAY_MULTIPLIER }
  let prev_speed := weapon.bullet_speed
  let weapon := { weapon with bullet_speed := weapon.bullet_speed * K.BULLET_SPEED_MULTIPLIER }
  let prev_size := weapon.size
  let weapon := { weapon with size := Vec2.smul K.BULLET_SIZE_MULTIPLIER weapon.size }
  let prev_color := weapon.color
  let weapon := { weapon with color := K.DAMAGE_BUFF_PROJECTILE_COLOR }
  let effect_timer : TimedEvent :=
    ⟨K.DAMAGE_EFFECT_TIME, .damage_restore prev_damage prev_speed prev_size prev_color⟩
  displayEffect DAMAGE
    { s with weapon := weapon, timedEvents := s.timedEvents ++ [effect_timer] }

/-- Embeds `handle_heal_effect()`. -/
def handle_heal_effect (K : Constants) (s : Game) : Except Err Game :=
  setActiveTimer K HEAL (-1) { s with health := K.MAX_HEALTH }

/-- Modelled from the spec: `WorldSystem::startEntityDeath` is not among the
sources; the spec says the enemy "starts its death sequence", recorded here
by adding the entity to `dying`. -/
def startEntityDeath (e : Entity) (s : Game) : Game :=
  { s with dying := s.dying ++ [e] }

/-- The loop of `handle_clear_screen` over the enemies. -/
def clear_screen_loop (G : Glm) (K : Constants) (camPos : Vec2) : List Enemy → Game → Game
  | [], s => s
  | en :: rest, s =>
    let distance := G.length (Vec2.sub en.position camPos)
    if en.is_boss = false ∧ distance < K.SCREEN_RADIUS * (9 / 10) then
      clear_screen_loop G K camPos rest (startEntityDeath en.entity s)
    else
      clear_screen_loop G K camPos rest s

/-- Embeds `handle_clear_screen()`. -/
def handle_clear_screen (G : Glm) (K : Constants) (s : Game) : Except Err Game :=
  setActiveTimer K CLEAR_SCREEN (-1) (clear_screen_loop G K s.camera s.enemies s)

/-- Embeds `handle_slow_effect()`. -/
def handle_slow_effect (s : Game) : Game :=
  let motion := s.motion
  let prev_acceleration := motion.acceleration_unit
  let prev_max_velocity := motion.max_velocity
  let motion := { motion with acceleration_unit := 3 / 10 }
  let motion := { motion with max_velocity := 200 }
  let effect_timer : TimedEvent := ⟨6000, .slow_restore prev_acceleration prev_max_velocity⟩
  displayEffect SLOW
    { s with motion := motion, timedEvents := s.timedEvents ++ [effect_timer] }

/-- Embeds `handle_fov_effect()`. -/
def handle_fov_effect (s : Game) : Game :=
  let s := { s with limit_fov := true }
  let prev_volume := s.volume
  let s := Mix_Volume (prev_volume - 75) s
  let effect_timer : TimedEvent := ⟨6000, .fov_restore prev_volume⟩
  displayEffect FOV { s with timedEvents := s.timedEvents ++ [effect_timer] }

/-- Embeds `handle_direction_effect()`; the timer keeps its default value. -/
def handle_direction_effect (K : Constants) (s : Game) : Game :=
  { s with timedEvents := s.timedEvents ++ [⟨K.DEFAULT_TIMER, .direction_restore⟩] }

/-- Embeds `handle_no_attack_effect()`. -/
def handle_no_attack_effect (K : Constants) (s : Game) : Game :=
  let s := { s with weapon := { s.weapon with attack_delay := 99999 } }
  let prev_sound := s.soundChunks "player_shoot_1"
  let no_ammo := s.soundChunks "no_ammo"
  let s := { s with soundChunks :=
    fun k => if k = "player_shoot_1" then no_ammo else s.soundChunks k }
  let effect_timer : TimedEvent := ⟨K.NO_ATTACK_TIME, .no_attack_restore prev_sound⟩
  displayEffect NO_ATTACK { s with timedEvents := s.timedEvents ++ [effect_timer] }

/-- The body of a stored lambda, run on the current state. -/
def Callback.run (K : Constants) : Callback → Game → Except Err Game
  | .damage_restore prev_damage prev_speed prev_size prev_color, s => do
    let weapon := s.weapon
    let weapon := { weapon with damage := prev_damage }
    let weapon := { weapon with attack_delay := K.ATTACK_DELAY }
    let weapon := { weapon with bullet_speed := prev_speed }
    let weapon := { weapon with size := prev_size }
    let weapon := { weapon with color := prev_color }
    let effects ← setIsActive s.effects DAMAGE false
    pure { s with weapon := weapon, effects := effects }
  | .slow_restore prev_acceleration prev_max_velocity, s => do
    let motion := s.motion
    let motion := { motion with acceleration_unit := prev_acceleration }
    let motion := { motion with max_velocity := prev_max_velocity }
    let effects ← setIsActive s.effects SLOW false
    pure { s with motion := motion, effects := effects }
  | .fov_restore prev_volume, s => do
    let s := { s with limit_fov := false }
    let s := Mix_Volume prev_volume s
    let effects ← setIsActive s.effects FOV false
    pure { s with effects := effects }
  | .direction_restore, s => do
    let effects ← setIsActive s.effects DIRECTION false
    pure { s with effects := effects }
  | .no_attack_restore prev_sound, s => do
    let s := { s with weapon := { s.weapon with attack_delay := K.ATTACK_DELAY } }
    let s := { s with weapon := { s.weapon with attack_timer := 0 } }
    let chunks := s.soundChunks
    let s := { s with soundChunks :=
      fun k => if k = "player_shoot_1" then prev_sound else chunks k }
    let effects ← setIsActive s.effects NO_ATTACK false
    pure { s with effects := effects }
  | .set_inactive id, s => do
    let effects ← setIsActive s.effects id false
    pure { s with effects := effects }

/-- The effect id whose `is_active` flag a stored lambda resets. -/
def Callback.target : Callback → CYST_EFFECT_ID
  | .damage_restore _ _ _ _ => DAMAGE
  | .slow_restore _ _ => SLOW
  | .fov_restore _ => FOV
  | .direction_restore => DIRECTION
  | .no_attack_restore _ => NO_ATTACK
  | .set_inactive id => id

/-! ## Effects system: `apply_random_effect` -/

/-- What the code before the `do ... while` loops ends in: the early
`return` after `playSound(EFFECT_COUNT)`, or the entry of the loop of one
category. -/
inductive Entry where
  | early_return (s : Game)
  | enter_loop (s : Game) (category : EFFECT_TYPE)

/-- The full-health check on `HEAL` at the start of the positive branch. -/
def heal_precheck (K : Constants) (s : Game) : Except Err Game := do
  let heal ← getEffect s.effects HEAL
  if heal.is_active = false ∧ s.health ≥ K.MAX_HEALTH then
    setActiveTimer K HEAL 2000 s
  else
    pure s

/-- The part of `apply_random_effect` before the `do ... while` loops:
the uniform draw, the check on `HEAL`, and the count check of the category. -/
def before_loop (K : Constants) (rng : Rng) (s : Game) : Except Err Entry :=
  if rng.prob ≤ K.POS_PROB then do
    let s ← heal_precheck K s
    if countActivePositive s.effects ≥ K.cyst_neg_start then
      let s ← playSound EFFECT_COUNT s
      pure (.early_return s)
    else
      pure (.enter_loop s POSITIVE)
  else do
    if countActiveNegative s.effects ≥ K.cyst_effect_count - K.cyst_neg_start then
      let s ← playSound EFFECT_COUNT s
      pure (.early_return s)
    else
      pure (.enter_loop s NEGATIVE)

/-- The offset added to a draw of `effect_dist`: none in the positive
branch, `cyst_neg_start` in the negative one. -/
def draw_offset (K : Constants) : EFFECT_TYPE → Nat
  | POSITIVE => 0
  | NEGATIVE => K.cyst_neg_start

/-- The loop `do { effect_id = draw + offset; } while (getEffect(effect_id).is_active);`
run on the given draws; when they are all rejected the loop has not exited. -/
def rejection_loop (effects : List Effect) (offset : Nat) : List Nat → Except Err CYST_EFFECT_ID
  | [] => .error .draws_exhausted
  | d :: ds => do
    let effect_id := d + offset
    let e ← getEffect effects effect_id
    if e.is_active then rejection_loop effects offset ds else pure effect_id

/-- The `switch (effect_id)` of `apply_random_effect`. -/
def run_handler (G : Glm) (K : Constants) (effect_id : CYST_EFFECT_ID) (s : Game) :
    Except Err Game :=
  if effect_id = DAMAGE then pure (handle_damage_effect K s)
  else if effect_id = HEAL then handle_heal_effect K s
  else if effect_id = CLEAR_SCREEN then handle_clear_screen G K s
  else if effect_id = SLOW then pure (handle_slow_effect s)
  else if effect_id = FOV then pure (handle_fov_effect s)
  else if effect_id = DIRECTION then pure (handle_direction_effect K s)
  else if effect_id = NO_ATTACK then pure (handle_no_attack_effect K s)
  else pure s

/-- The part of `apply_random_effect` after the loops: mark the id active,
run its handler, play the sound of its category. -/
def dispatch (G : Glm) (K : Constants) (effect_id : CYST_EFFECT_ID) (s : Game) :
    Except Err Game := do
  let effects ← setIsActive s.effects effect_id true
  let s ← run_handler G K effect_id { s with effects := effects }
  playSound effect_id s

/-- The id `apply_random_effect` selects, with the state at the point where
the id is marked active; `none` for the early `return`. -/
def select_effect (K : Constants) (rng : Rng) (s : Game) :
    Except Err (Game × Option CYST_EFFECT_ID) := do
  match ← before_loop K rng s with
  | .early_return s => pure (s, none)
  | .enter_loop s category =>
    let effect_id ← rejection_loop s.effects (draw_offset K category) rng.draws
    pure (s, some effect_id)

/-- Embeds `apply_random_effect()`. -/
def apply_random_effect (G : Glm) (K : Constants) (rng : Rng) (s : Game) :
    Except Err Game := do
  match ← select_effect K rng s with
  | (s, none) => pure s
  | (s, some effect_id) => dispatch G K effect_id s

/-- Modelled from the spec: the code that advances the timed-event queue is
not among the sources. By the spec an expiring event has its reversal action
run exactly once and is removed; `expire i` does this for the event at
position `i` of the queue. -/
def expire (K : Constants) (i : Nat) (s : Game) : Except Err Game :=
  match s.timedEvents[i]? with
  | none => .error .assertion
  | some ev => do
    let s ← ev.callback.run K s
    pure { s with timedEvents := s.timedEvents.eraseIdx i }

/-! ## World system: data -/

/-- The fields of the `Motion` component that `step` and `handle_collisions`
touch. -/
structure Motion where
  position : Vec2
  velocity : Vec2
  angle : ℚ
deriving DecidableEq

/-- The health bar fields of the `Health` component. -/
structure Health where
  currentHealthPercentage : ℚ
  targetHealthPercentage : ℚ
  timer_ms : ℚ
deriving DecidableEq

/-- The `DeathTimer` component with the entity that owns it. -/
structure DeathTimer where
  entity : Entity
  timer_ms : ℚ
deriving DecidableEq

/-- The enum `COLLISION_TYPE`, with the values `handle_collisions` tests. -/
inductive COLLISION_TYPE where
  | WITH_BOUNDARY
  | PLAYER_WITH_ENEMY
  | ENEMY_WITH_ENEMY
deriving DecidableEq, Repr

/-- The `Collision` component. -/
structure Collision where
  collision_type : COLLISION_TYPE
  other_entity : Entity
deriving DecidableEq

/-- The entries of the global `keys_pressed` that the code reads. -/
structure Keys where
  W : Bool
  S : Bool
  A : Bool
  D : Bool
  H : Bool
deriving DecidableEq

/-- Constants of headers that are not among the sources. -/
structure WorldConstants where
  HEALTH_BAR_UPDATE_TIME_SLAP : ℚ
  window_width_px : ℚ
  window_height_px : ℚ

/-- The global `MAX_VELOCITY`. -/
def MAX_VELOCITY : ℚ := 400

/-- The global `VELOCITY_UNIT`. -/
def VELOCITY_UNIT : ℚ := 20

/-- The global `ACCELERATION_UNIT`. -/
def ACCELERATION_UNIT : ℚ := 9 / 10

/-- The state `WorldSystem::step` and `handle_collisions` read and write.
`motions` is the motion container (every entity the code looks up has a
motion), `collisions` the collision container in insertion order. -/
structure World where
  player : Entity
  motions : Entity → Motion
  deathTimers : List DeathTimer
  playerHealthBar : Health
  screen_darken_factor : ℚ
  allow_accel : Bool
  collisions : List (Entity × Collision)
  keys_pressed : Keys
  mouse : Vec2

/-- How a call of `step` ends: in `restart_game()`, called on the given
state (what `restart_game` rebuilds is created by functions that are not
among the sources), or at its last line with the given state. -/
inductive StepResult where
  | restarted (at_restart : World)
  | continued (w : World)

/-- The outcome of the loop over the death timers: an expired timer (the
loop returns into `restart_game`) or the updated timers and minimum. -/
inductive DeathLoop where
  | expired (timers : List DeathTimer)
  | done (timers : List DeathTimer) (min_timer_ms : ℚ)

/-! ## World system: `step` -/

/-- The loop of `step` over `registry.deathTimers`. -/
def death_timer_loop (elapsed_ms : ℚ) : List DeathTimer → ℚ → DeathLoop
  | [], min_timer_ms => .done [] min_timer_ms
  | timer :: rest, min_timer_ms =>
    let timer := { timer with timer_ms := timer.timer_ms - elapsed_ms }
    let min_timer_ms := if timer.timer_ms < min_timer_ms then timer.timer_ms else min_timer_ms
    if timer.timer_ms < 0 then
      .expired rest
    else
      match death_timer_loop elapsed_ms rest min_timer_ms with
      | .expired timers => .expired (timer :: timers)
      | .done timers m => .done (timer :: timers) m

/-- Write the velocity of the motion of `e`. -/
def set_velocity (w : World) (e : Entity) (v : Vec2) : World :=
  { w with motions := fun e' => if e' = e then { w.motions e with velocity := v } else w.motions e' }

/-- Embeds `movement()`. -/
def movement (G : Glm) (w : World) : World :=
  let k := w.keys_pressed
  let w := if k.H then
      { w with playerHealthBar :=
          { w.playerHealthBar with
            targetHealthPercentage := w.playerHealthBar.targetHealthPercentage - 1 } }
    else w
  let v := (w.motions w.player).velocity
  let v := if k.W then { v with y := v.y + VELOCITY_UNIT } else v
  let v := if k.S then { v with y := v.y - VELOCITY_UNIT } else v
  let v := if (!(k.S || k.W)) || (k.S && k.W) then { v with y := v.y * ACCELERATION_UNIT } else v
  let v := if k.D then { v with x := v.x + VELOCITY_UNIT } else v
  let v := if k.A then { v with x := v.x - VELOCITY_UNIT } else v
  let v := if (!(k.D || k.A)) || (k.D && k.A) then { v with x := v.x * ACCELERATION_UNIT } else v
  let magnitude := G.length v
  let v := if magnitude > MAX_VELOCITY ∨ magnitude < -MAX_VELOCITY then
      Vec2.smul (MAX_VELOCITY / magnitude) v
    else v
  set_velocity w w.player v

/-- Embeds `direction()`. -/
def direction (C : WorldConstants) (G : Glm) (w : World) : World :=
  let right := C.window_width_px
  let bottom := C.window_height_px
  let angle := G.atan2 (-bottom / 2 + w.mouse.y) (right / 2 - w.mouse.x) + G.M_PI + 7 / 10
  { w with motions := fun e =>
      if e = w.player then { w.motions w.player with angle := angle } else w.motions e }

/-- The last lines of `step`: `movement()` unless suppressed, then
`direction()`. -/
def step_tail (C : WorldConstants) (G : Glm) (w : World) : World :=
  direction C G (if w.allow_accel then movement G w else { w with allow_accel := true })

/-- Embeds `step(elapsed_ms_since_last_update)`. The removal of the debug components
at its start touches nothing of the state of the model. -/
def step (C : WorldConstants) (G : Glm) (elapsed_ms : ℚ) (w : World) : StepResult :=
  match death_timer_loop elapsed_ms w.deathTimers 3000 with
  | .expired timers =>
    .restarted { w with deathTimers := timers, screen_darken_factor := 0 }
  | .done timers min_timer_ms =>
    let w : World := { w with deathTimers := timers }
    let bar : Health := w.playerHealthBar
    if bar.currentHealthPercentage ≠ bar.targetHealthPercentage ∧ bar.timer_ms > 0 then
      let bar : Health := { bar with timer_ms := bar.timer_ms - elapsed_ms }
      let min_timer_ms :=
        if bar.timer_ms < min_timer_ms ∧ bar.targetHealthPercentage ≤ 0 then bar.timer_ms
        else min_timer_ms
      let bar : Health :=
        if bar.timer_ms < 0 then
          { bar with timer_ms := C.HEALTH_BAR_UPDATE_TIME_SLAP,
                     currentHealthPercentage := bar.targetHealthPercentage }
        else bar
      if bar.currentHealthPercentage ≤ 0 then
        .restarted { w with playerHealthBar := bar, screen_darken_factor := 0 }
      else
        .continued (step_tail C G { w with playerHealthBar := bar,
                                           screen_darken_factor := 1 - min_timer_ms / 3000 })
    else
      .continued (step_tail C G { w with screen_darken_factor := 1 - min_timer_ms / 3000 })

/-- One frame as the driver sees it: the elapsed time and the input state
the callbacks `on_key` and `on_mouse_move` have left in the globals. -/
structure Frame where
  elapsed_ms : ℚ
  keys_pressed : Keys
  mouse : Vec2

/-- Successive calls of `step`, one per frame, as long as none of them ends
in `restart_game()`. -/
def run_frames (C : WorldConstants) (G : Glm) : List Frame → World → StepResult
  | [], w => .continued w
  | f :: fs, w =>
    match step C G f.elapsed_ms { w with keys_pressed := f.keys_pressed, mouse := f.mouse } with
    | .restarted r => .restarted r
    | .continued w => run_frames C G fs w

/-! ## World system: `handle_collisions` -/

/-- The body of the loop of `handle_collisions` for one collision. -/
def handle_collision (G : Glm) (w : World) (c : Entity × Collision) : World :=
  let entity := c.1
  let collision := c.2
  let motion := w.motions entity
  if collision.collision_type = .WITH_BOUNDARY then
    let normal_vec := Vec2.neg (G.normalize motion.position)
    if Vec2.dot motion.velocity normal_vec < 0 then
      let reflection :=
        Vec2.sub motion.velocity (Vec2.smul (2 * Vec2.dot motion.velocity normal_vec) normal_vec)
      { set_velocity w entity (Vec2.smul (95 / 100) reflection) with allow_accel := false }
    else w
  else if collision.collision_type = .PLAYER_WITH_ENEMY then
    let enemy_entity := collision.other_entity
    let enemy_motion := w.motions enemy_entity
    let knockback_direction := G.normalize (Vec2.sub motion.position enemy_motion.position)
    { set_velocity w entity (Vec2.smul MAX_VELOCITY knockback_direction) with allow_accel := false }
  else if collision.collision_type = .ENEMY_WITH_ENEMY then
    let other_enemy_entity := collision.other_entity
    let other_enemy_motion := w.motions other_enemy_entity
    set_velocity w entity other_enemy_motion.velocity
  else w

/-- Embeds `handle_collisions()`. -/
def handle_collisions (G : Glm) (w : World) : World :=
  { w.collisions.foldl (handle_collision G) w with collisions := [] }

/-! ## Runs of the effects system -/

/-- What can happen to the effects system between two frames: a call of
`apply_random_effect` (with the random draws it will see and the health the
player has by then) or the expiry of the timed event at a position of the
queue. -/
inductive Action where
  | apply (rng : Rng) (health : ℚ)
  | expire (i : Nat)

/-- Run one action. -/
def Action.run (G : Glm) (K : Constants) : Action → Game → Except Err Game
  | .apply rng health, s => apply_random_effect G K rng { s with health := health }
  | .expire i, s => Cytotoxic.expire K i s

/-- Run a sequence of actions, first to last. -/
def run_actions (G : Glm) (K : Constants) : List Action → Game → Except Err Game
  | [], s => .ok s
  | a :: rest, s =>
    match a.run G K s with
    | .error err => .error err
    | .ok s1 => run_actions G K rest s1

/-- The number of pending timed events whose callback resets the flag of
`id`. -/
def pending (s : Game) (id : CYST_EFFECT_ID) : Nat :=
  s.timedEvents.countP (fun ev => decide (ev.callback.target = id))

/-- The index range of a category in the effect table. -/
def in_category (K : Constants) : EFFECT_TYPE → CYST_EFFECT_ID → Prop
  | POSITIVE, id => id < K.cyst_neg_start
  | NEGATIVE, id => K.cyst_neg_start ≤ id ∧ id < K.cyst_effect_count

/-- The flag of `id` as a count: 1 when the table has an entry for `id`
that is active, 0 otherwise. -/
def active_flag (effects : List Effect) (id : CYST_EFFECT_ID) : Nat :=
  match getEffect effects id with
  | .ok e => if e.is_active then 1 else 0
  | .error _ => 0

/-- Every id has as many pending reversal events as its flag says. -/
def Consistent (s : Game) : Prop :=
  ∀ id, pending s id = active_flag s.effects id

/-- The table `l'` is the table `l` after `getEffect(id).is_active = b`. -/
def FlagSet (l l' : List Effect) (id : CYST_EFFECT_ID) (b : Bool) : Prop :=
  (∃ e, getEffect l id = .ok e ∧ getEffect l' id = .ok { e with is_active := b }) ∧
    (∀ id', id' ≠ id → getEffect l' id' = getEffect l id') ∧
    l'.map (fun e => (e.id, e.type)) = l.map (fun e => (e.id, e.type))

/-! ## Predicates and quantities of the statements -/

/-- The layout of the effect table: `cyst_effect_count` entries whose ids
are their indices, the positive effects being exactly the first
`cyst_neg_start` of them. -/
def TableLayout (K : Constants) (effects : List Effect) : Prop :=
  effects.map (fun e => e.id) = List.range K.cyst_effect_count ∧
    (∀ e ∈ effects, e.type = POSITIVE ↔ e.id < K.cyst_neg_start) ∧
    K.cyst_neg_start ≤ K.cyst_effect_count

instance (K : Constants) (effects : List Effect) : Decidable (TableLayout K effects) := by
  unfold TableLayout
  infer_instance

/-- The minimum the darken factor is computed from, as the spec words it:
the least of 3000, of the remaining time of every death timer after this
frame's decrement, and, when the health animation is running towards a
target of at most 0, of the health bar timer after its decrement. -/
def min_remaining_timer (elapsed_ms : ℚ) (w : World) : ℚ :=
  let m := (w.deathTimers.map (fun t => t.timer_ms - elapsed_ms)).foldl min 3000
  let bar := w.playerHealthBar
  if (bar.currentHealthPercentage ≠ bar.targetHealthPercentage ∧ bar.timer_ms > 0) ∧
      bar.targetHealthPercentage ≤ 0 then
    min m (bar.timer_ms - elapsed_ms)
  else m

/-- Whether a stored lambda is the reversal of `DAMAGE` or of `NO_ATTACK`,
the two lambdas that assign `weapon.attack_delay`. -/
def Callback.resets_attack_delay : Callback → Bool
  | .damage_restore _ _ _ _ => true
  | .no_attack_restore _ => true
  | _ => false

/-- Whether an action, run on the given state, dispatches `DAMAGE` or runs
the reversal of `DAMAGE` or of `NO_ATTACK`. -/
def Action.touches_attack_delay (K : Constants) : Action → Game → Bool
  | .apply rng health, s =>
    match select_effect K rng { s with health := health } with
    | .ok (_, some effect_id) => decide (effect_id = DAMAGE)
    | _ => false
  | .expire i, s =>
    match s.timedEvents[i]? with
    | some ev => ev.callback.resets_attack_delay
    | none => false

/-- A run in which no action dispatches `DAMAGE` and none runs the reversal
of `DAMAGE` or of `NO_ATTACK`. -/
def undisturbed (G : Glm) (K : Constants) : List Action → Game → Bool
  | [], _ => true
  | a :: rest, s =>
    !(a.touches_attack_delay K s) &&
      match a.run G K s with
      | .ok s1 => undisturbed G K rest s1
      | .error _ => true

/-- What a state shows of the `NO_ATTACK` effect: the weapon's attack delay,
the flag of `NO_ATTACK` as a count, and the number of pending reversals of
`NO_ATTACK`. -/
def no_attack_view (s : Game) : ℚ × Nat × Nat :=
  (s.weapon.attack_delay, active_flag s.effects NO_ATTACK, pending s NO_ATTACK)

/-! ## Concrete data for worked instances -/

/-- The table of the seven effects in enum order, three positive ones
first, all inactive. -/
def table0 : List Effect :=
  [⟨DAMAGE, POSITIVE, false⟩, ⟨HEAL, POSITIVE, false⟩, ⟨CLEAR_SCREEN, POSITIVE, false⟩,
   ⟨SLOW, NEGATIVE, false⟩, ⟨FOV, NEGATIVE, false⟩, ⟨DIRECTION, NEGATIVE, false⟩,
   ⟨NO_ATTACK, NEGATIVE, false⟩]

/-- A choice of the header constants, with three positive effects of seven. -/
def K0 : Constants :=
  { POS_PROB := 1 / 2, MAX_HEALTH := 100, cyst_neg_start := 3, cyst_effect_count := 7,
    DAMAGE_MULTIPLIER := 2, ATTACK_DELAY_MULTIPLIER := 1 / 2, BULLET_SPEED_MULTIPLIER := 2,
    BULLET_SIZE_MULTIPLIER := 2, DAMAGE_BUFF_PROJECTILE_COLOR := ⟨1, 0, 0, 1⟩,
    DAMAGE_EFFECT_TIME := 5000, ATTACK_DELAY := 300, NO_ATTACK_TIME := 4000,
    SCREEN_RADIUS := 500, DEFAULT_TIMER := 3000 }

/-- Stand-ins for the library functions, exact on the inputs used below. -/
def G0 : Glm :=
  { normalize := fun p => p, length := fun p => |p.x| + |p.y|, atan2 := fun _ _ => 0, M_PI := 3 }

/-- A game state with all effects inactive and no pending timed event. -/
def game0 : Game :=
  { effects := table0, timedEvents := [], health := 40,
    weapon := ⟨10, 250, 0, 500, ⟨8, 8⟩, ⟨1, 1, 1, 1⟩⟩, motion := ⟨9 / 10, 400⟩,
    limit_fov := false, volume := 100,
    soundChunks := fun k => k.length,
    played := [], icons := [], enemies := [], camera := ⟨0, 0⟩, dying := [] }

/-- A choice of the header constants of the world system. -/
def C0 : WorldConstants :=
  { HEALTH_BAR_UPDATE_TIME_SLAP := 500, window_width_px := 1280, window_height_px := 720 }

/-- No key pressed. -/
def keys0 : Keys := ⟨false, false, false, false, false⟩

/-- A world without death timers whose health bar animates from 50 to 0
with 1000 ms left on its timer. -/
def world0 : World :=
  { player := 0, motions := fun _ => ⟨⟨0, 0⟩, ⟨0, 0⟩, 0⟩, deathTimers := [],
    playerHealthBar := ⟨50, 0, 1000⟩, screen_darken_factor := 0, allow_accel := true,
    collisions := [], keys_pressed := keys0, mouse := ⟨0, 0⟩ }

/-- A game state in which the three positive effects are active, each with
its pending reversal, and the player is at full health. -/
def game_pos_full : Game :=
  { game0 with
    effects := [⟨DAMAGE, POSITIVE, true⟩, ⟨HEAL, POSITIVE, true⟩, ⟨CLEAR_SCREEN, POSITIVE, true⟩,
      ⟨SLOW, NEGATIVE, false⟩, ⟨FOV, NEGATIVE, false⟩, ⟨DIRECTION, NEGATIVE, false⟩,
      ⟨NO_ATTACK, NEGATIVE, false⟩],
    timedEvents := [⟨5000, .damage_restore 10 500 ⟨8, 8⟩ ⟨1, 1, 1, 1⟩⟩,
      ⟨3000, .set_inactive HEAL⟩, ⟨3000, .set_inactive CLEAR_SCREEN⟩],
    health := 100 }

/-- A world in which entity 0 sits at `(1,0)` and moves with `(10,0)`, and
entity 1 sits at `(0,0)` and moves with `(2,0)`; each of the two enemies has
an `ENEMY_WITH_ENEMY` collision with the other. -/
def world1 : World :=
  { world0 with
    motions := fun e => if e = 0 then ⟨⟨1, 0⟩, ⟨10, 0⟩, 0⟩ else ⟨⟨0, 0⟩, ⟨2, 0⟩, 0⟩,
    collisions := [(0, ⟨.ENEMY_WITH_ENEMY, 1⟩), (1, ⟨.ENEMY_WITH_ENEMY, 0⟩)] }

/-- A world with two death timers, at 1500 ms and at 16 ms, and an idle
health bar. -/
def world2 : World :=
  { world0 with deathTimers := [⟨5, 1500⟩, ⟨6, 16⟩], playerHealthBar := ⟨80, 80, 500⟩ }

/-- The state `game0` with the player at full health. -/
def game_full : Game := { game0 with health := 100 }

/-- The state `game_full` after the full-health check has marked `HEAL`. -/
def game_full_marked : Game :=
  { game_full with
    effects := [⟨DAMAGE, POSITIVE, false⟩, ⟨HEAL, POSITIVE, true⟩,
      ⟨CLEAR_SCREEN, POSITIVE, false⟩, ⟨SLOW, NEGATIVE, false⟩, ⟨FOV, NEGATIVE, false⟩,
      ⟨DIRECTION, NEGATIVE, false⟩, ⟨NO_ATTACK, NEGATIVE, false⟩],
    timedEvents := [⟨2000, .set_inactive HEAL⟩] }

/-- The state reached from `game0` by a call at full health that draws
`HEAL` and then `DAMAGE`, followed by the expiry of the first timed event. -/
def game_after_run : Game :=
  { game0 with
    effects := [⟨DAMAGE, POSITIVE, true⟩, ⟨HEAL, POSITIVE, false⟩,
      ⟨CLEAR_SCREEN, POSITIVE, false⟩, ⟨SLOW, NEGATIVE, false⟩, ⟨FOV, NEGATIVE, false⟩,
      ⟨DIRECTION, NEGATIVE, false⟩, ⟨NO_ATTACK, NEGATIVE, false⟩],
    timedEvents := [⟨5000, .damage_restore 10 500 ⟨8, 8⟩ ⟨1, 1, 1, 1⟩⟩],
    health := 100,
    weapon := ⟨20, 125, 0, 1000, ⟨16, 16⟩, ⟨1, 0, 0, 1⟩⟩,
    played := [8],
    icons := [DAMAGE] }

/-- The state `game0` after the dispatch of `NO_ATTACK`. -/
def game_no_attack : Game :=
  { game0 with
    effects := [⟨DAMAGE, POSITIVE, false⟩, ⟨HEAL, POSITIVE, false⟩,
      ⟨CLEAR_SCREEN, POSITIVE, false⟩, ⟨SLOW, NEGATIVE, false⟩, ⟨FOV, NEGATIVE, false⟩,
      ⟨DIRECTION, NEGATIVE, false⟩, ⟨NO_ATTACK, NEGATIVE, true⟩],
    timedEvents := [⟨4000, .no_attack_restore (game0.soundChunks "player_shoot_1")⟩],
    weapon := ⟨10, 99999, 0, 500, ⟨8, 8⟩, ⟨1, 1, 1, 1⟩⟩,
    soundChunks := fun k =>
      if k = "player_shoot_1" then game0.soundChunks "no_ammo" else game0.soundChunks k,
    played := [game0.soundChunks "cyst_neg"],
    icons := [NO_ATTACK] }

/-- The state `game_no_attack` after a call that draws `NO_ATTACK`, rejects
it, and dispatches `SLOW`, followed by the expiry of the timed event of
`SLOW`. -/
def game_no_attack_later : Game :=
  { game_no_attack with
    played := [game0.soundChunks "cyst_neg", game0.soundChunks "cyst_neg"],
    icons := [NO_ATTACK, SLOW] }

/-! ## Lemmas on the effect table -/

theorem EFFECT_TYPE.positive_ne_negative : POSITIVE ≠ NEGATIVE := by decide

theorem EFFECT_TYPE.negative_ne_positive : NEGATIVE ≠ POSITIVE := by decide

theorem rejection_loop_inactive (effects : List Effect) (offset : Nat) (draws : List Nat)
    (id : CYST_EFFECT_ID) (h : rejection_loop effects offset draws = .ok id) :
    ∃ e, getEffect effects id = .ok e ∧ e.is_active = false := by
  induction draws with
  | nil => simp [rejection_loop] at h
  | cons d ds ih =>
    simp only [rejection_loop, bind, Except.bind] at h
    cases hg : getEffect effects (d + offset) with
    | error err => simp [hg] at h
    | ok e =>
      simp only [hg] at h
      by_cases ha : e.is_active = true
      · simp only [ha, if_true] at h
        exact ih h
      · simp only [ha] at h
        have hid : d + offset = id := by simpa [pure, Except.pure] using h
        subst hid
        exact ⟨e, hg, by simpa using ha⟩

theorem select_effect_some (K : Constants) (rng : Rng) (s s1 : Game) (id : CYST_EFFECT_ID)
    (h : select_effect K rng s = .ok (s1, some id)) :
    ∃ category, before_loop K rng s = .ok (.enter_loop s1 category) ∧
      rejection_loop s1.effects (draw_offset K category) rng.draws = .ok id := by
  simp only [select_effect, bind, Except.bind] at h
  cases hb : before_loop K rng s with
  | error err => simp [hb] at h
  | ok entry =>
    simp only [hb] at h
    cases entry with
    | early_return s2 => simp [pure, Except.pure] at h
    | enter_loop s2 category =>
      simp only at h
      cases hl : rejection_loop s2.effects (draw_offset K category) rng.draws with
      | error err => simp [hl] at h
      | ok id2 =>
        simp only [hl, pure, Except.pure, Except.ok.injEq, Prod.mk.injEq, Option.some.injEq] at h
        obtain ⟨h1, h2⟩ := h
        subst h1 h2
        exact ⟨category, rfl, hl⟩

theorem getEffect_mem {l : List Effect} {id : CYST_EFFECT_ID} {e : Effect}
    (h : getEffect l id = .ok e) : e ∈ l ∧ e.id = id := by
  induction l with
  | nil => simp [getEffect] at h
  | cons a l ih =>
    simp only [getEffect] at h
    by_cases ha : a.id = id
    · simp only [ha, if_true, Except.ok.injEq] at h
      subst h
      exact ⟨List.mem_cons_self _ _, ha⟩
    · simp only [ha, if_false] at h
      exact ⟨List.mem_cons_of_mem _ (ih h).1, (ih h).2⟩

theorem getEffect_of_mem {l : List Effect} {id : CYST_EFFECT_ID}
    (h : id ∈ l.map (fun e => e.id)) : ∃ e, getEffect l id = .ok e := by
  induction l with
  | nil => simp at h
  | cons a l ih =>
    simp only [getEffect]
    by_cases ha : a.id = id
    · exact ⟨a, by simp [ha]⟩
    · simp only [ha, if_false]
      apply ih
      simp only [List.map_cons, List.mem_cons] at h
      rcases h with h | h
      · exact absurd h.symm ha
      · exact h

theorem getEffect_of_nodup {l : List Effect} (hn : (l.map (fun e => e.id)).Nodup)
    {e : Effect} (he : e ∈ l) : getEffect l e.id = .ok e := by
  induction l with
  | nil => simp at he
  | cons a l ih =>
    simp only [List.map_cons, List.nodup_cons] at hn
    simp only [getEffect]
    rcases List.mem_cons.1 he with h | h
    · subst h
      simp
    · have hne : a.id ≠ e.id := by
        intro hc
        apply hn.1
        rw [hc]
        exact List.mem_map_of_mem _ h
      simp only [hne, if_false]
      exact ih hn.2 h

theorem setIsActive_spec {l l' : List Effect} {id : CYST_EFFECT_ID} {b : Bool}
    (h : setIsActive l id b = .ok l') :
    (∃ e, getEffect l id = .ok e ∧ getEffect l' id = .ok { e with is_active := b }) ∧
      (∀ id', id' ≠ id → getEffect l' id' = getEffect l id') ∧
      l'.map (fun e => (e.id, e.type)) = l.map (fun e => (e.id, e.type)) := by
  induction l generalizing l' with
  | nil => simp [setIsActive] at h
  | cons a l ih =>
    by_cases ha : a.id = id
    · subst ha
      simp only [setIsActive, if_true, Except.ok.injEq] at h
      subst h
      refine ⟨⟨a, by simp [getEffect], by simp [getEffect]⟩, ?_, by simp⟩
      intro id' hne
      have : ¬ a.id = id' := fun hc => hne hc.symm
      simp [getEffect, this]
    · simp only [setIsActive, ha, if_false] at h
      cases hs : setIsActive l id b with
      | error err => simp [hs, Except.map] at h
      | ok l2 =>
        simp only [hs, Except.map, Except.ok.injEq] at h
        subst h
        obtain ⟨⟨e, h1, h2⟩, h3, h4⟩ := ih hs
        refine ⟨⟨e, by simp [getEffect, ha, h1], by simp [getEffect, ha, h2]⟩, ?_, by simp [h4]⟩
        intro id' hne
        by_cases hb : a.id = id'
        · simp [getEffect, hb]
        · simp [getEffect, hb, h3 id' hne]

theorem setIsActive_of_getEffect {l : List Effect} {id : CYST_EFFECT_ID} {e : Effect}
    (b : Bool) (h : getEffect l id = .ok e) : ∃ l', setIsActive l id b = .ok l' := by
  induction l with
  | nil => simp [getEffect] at h
  | cons a l ih =>
    simp only [getEffect] at h
    simp only [setIsActive]
    by_cases ha : a.id = id
    · simp [ha]
    · simp only [ha, if_false] at h ⊢
      obtain ⟨l2, hl2⟩ := ih h
      exact ⟨a :: l2, by simp [hl2, Except.map]⟩

theorem setIsActive_mem {l l' : List Effect} {id : CYST_EFFECT_ID} {b : Bool}
    (h : setIsActive l id b = .ok l') {x : Effect} (hx : x ∈ l') :
    ∃ y ∈ l, y.id = x.id ∧ y.type = x.type ∧ (x.id ≠ id → y = x) := by
  induction l generalizing l' with
  | nil => simp [setIsActive] at h
  | cons a l ih =>
    by_cases ha : a.id = id
    · subst ha
      simp only [setIsActive, if_true, Except.ok.injEq] at h
      subst h
      rcases List.mem_cons.1 hx with h1 | h1
      · subst h1
        exact ⟨a, List.mem_cons_self _ _, rfl, rfl, fun hne => absurd rfl hne⟩
      · exact ⟨x, List.mem_cons_of_mem _ h1, rfl, rfl, fun _ => rfl⟩
    · simp only [setIsActive, ha, if_false] at h
      cases hs : setIsActive l id b with
      | error err => simp [hs, Except.map] at h
      | ok l2 =>
        simp only [hs, Except.map, Except.ok.injEq] at h
        subst h
        rcases List.mem_cons.1 hx with h1 | h1
        · subst h1
          exact ⟨x, List.mem_cons_self _ _, rfl, rfl, fun _ => rfl⟩
        · obtain ⟨y, hy, h2⟩ := ih hs h1
          exact ⟨y, List.mem_cons_of_mem _ hy, h2⟩

theorem TableLayout.setIsActive {K : Constants} {l l' : List Effect} {id : CYST_EFFECT_ID}
    {b : Bool} (hT : TableLayout K l) (h : setIsActive l id b = .ok l') : TableLayout K l' := by
  obtain ⟨h1, h2, h3⟩ := hT
  have hm := (setIsActive_spec h).2.2
  refine ⟨?_, ?_, h3⟩
  · have := congrArg (List.map Prod.fst) hm
    simpa [List.map_map, Function.comp] using this.trans (by simpa [List.map_map, Function.comp] using h1)
  · intro x hx
    obtain ⟨y, hy, hid, hty, _⟩ := setIsActive_mem h hx
    rw [← hid, ← hty]
    exact h2 y hy

theorem TableLayout.getEffect_lt {K : Constants} {l : List Effect} (hT : TableLayout K l)
    {id : CYST_EFFECT_ID} {e : Effect} (h : getEffect l id = .ok e) :
    id < K.cyst_effect_count ∧ (e.type = POSITIVE ↔ id < K.cyst_neg_start) := by
  obtain ⟨he, hid⟩ := getEffect_mem h
  have : e.id ∈ l.map (fun e => e.id) := List.mem_map_of_mem _ he
  rw [hT.1, List.mem_range] at this
  rw [← hid]
  exact ⟨this, hT.2.1 e he⟩

theorem TableLayout.getEffect_ok {K : Constants} {l : List Effect} (hT : TableLayout K l)
    {id : CYST_EFFECT_ID} (h : id < K.cyst_effect_count) : ∃ e, getEffect l id = .ok e := by
  apply getEffect_of_mem
  rw [hT.1, List.mem_range]
  exact h

theorem TableLayout.getEffect_self {K : Constants} {l : List Effect} (hT : TableLayout K l)
    {e : Effect} (he : e ∈ l) : getEffect l e.id = .ok e := by
  apply getEffect_of_nodup _ he
  rw [hT.1]
  exact List.nodup_range _

/-! ## Lemmas on the counts of active effects -/

theorem countP_lt_range (n m : Nat) :
    (List.range m).countP (fun i => decide (i < n)) = min n m := by
  induction m with
  | zero => simp
  | succ m ih =>
    rw [List.range_succ, List.countP_append, ih]
    by_cases h : m < n
    · simp [h]
      omega
    · simp [h]
      omega

theorem TableLayout.count_positive {K : Constants} {l : List Effect} (hT : TableLayout K l) :
    l.countP (fun e => decide (e.type = POSITIVE)) = K.cyst_neg_start := by
  have h1 : l.countP (fun e => decide (e.type = POSITIVE)) =
      l.countP ((fun i => decide (i < K.cyst_neg_start)) ∘ (fun e => e.id)) := by
    apply List.countP_congr
    intro e he
    simp [hT.2.1 e he]
  rw [h1, ← List.countP_map, hT.1, countP_lt_range]
  exact Nat.min_eq_left hT.2.2

theorem TableLayout.length_eq {K : Constants} {l : List Effect} (hT : TableLayout K l) :
    l.length = K.cyst_effect_count := by
  have := congrArg List.length hT.1
  simpa using this

theorem TableLayout.count_negative {K : Constants} {l : List Effect} (hT : TableLayout K l) :
    l.countP (fun e => decide (e.type = NEGATIVE)) = K.cyst_effect_count - K.cyst_neg_start := by
  have h1 := List.length_eq_countP_add_countP (fun e : Effect => decide (e.type = POSITIVE)) (l := l)
  have h2 : l.countP (fun e => decide (e.type = NEGATIVE)) =
      l.countP (fun e => ¬ (decide (e.type = POSITIVE)) = true) := by
    apply List.countP_congr
    intro e _
    cases e.type <;> simp
  rw [h2]
  rw [hT.length_eq, hT.count_positive] at h1
  omega

theorem countActivePositive_of_all {K : Constants} {l : List Effect} (hT : TableLayout K l)
    (hall : ∀ e ∈ l, e.type = POSITIVE → e.is_active = true) :
    countActivePositive l = K.cyst_neg_start := by
  rw [← hT.count_positive]
  apply List.countP_congr
  intro e he
  by_cases hp : e.type = POSITIVE
  · simp [hp, hall e he hp]
  · simp [hp]

theorem countActiveNegative_of_all {K : Constants} {l : List Effect} (hT : TableLayout K l)
    (hall : ∀ e ∈ l, e.type = NEGATIVE → e.is_active = true) :
    countActiveNegative l = K.cyst_effect_count - K.cyst_neg_start := by
  rw [← hT.count_negative]
  apply List.countP_congr
  intro e he
  by_cases hp : e.type = NEGATIVE
  · simp [hp, hall e he hp]
  · simp [hp]

/-! ## Lemmas on the steps of `apply_random_effect` -/

theorem setActiveTimer_spec {K : Constants} {id : CYST_EFFECT_ID} {timer : ℚ} {s s' : Game}
    (h : setActiveTimer K id timer s = .ok s') :
    ∃ effects, setIsActive s.effects id true = .ok effects ∧
      s' = { s with effects := effects,
                    timedEvents := s.timedEvents ++
                      [⟨if timer ≥ 0 then timer else K.DEFAULT_TIMER, .set_inactive id⟩] } := by
  simp only [setActiveTimer, bind, Except.bind] at h
  cases hs : setIsActive s.effects id true with
  | error err => simp [hs] at h
  | ok effects =>
    simp only [hs, pure, Except.pure, Except.ok.injEq] at h
    exact ⟨effects, rfl, h.symm⟩

theorem heal_precheck_spec {K : Constants} {s s' : Game} (h : heal_precheck K s = .ok s') :
    ∃ heal, getEffect s.effects HEAL = .ok heal ∧
      ((heal.is_active = false ∧ s.health ≥ K.MAX_HEALTH ∧ setActiveTimer K HEAL 2000 s = .ok s') ∨
       (¬ (heal.is_active = false ∧ s.health ≥ K.MAX_HEALTH) ∧ s' = s)) := by
  simp only [heal_precheck, bind, Except.bind] at h
  cases hg : getEffect s.effects HEAL with
  | error err => simp [hg] at h
  | ok heal =>
    simp only [hg] at h
    refine ⟨heal, rfl, ?_⟩
    by_cases hc : heal.is_active = false ∧ s.health ≥ K.MAX_HEALTH
    · rw [if_pos hc] at h
      exact Or.inl ⟨hc.1, hc.2, h⟩
    · rw [if_neg hc] at h
      simp only [pure, Except.pure, Except.ok.injEq] at h
      exact Or.inr ⟨hc, h.symm⟩

theorem playSound_EFFECT_COUNT (s : Game) :
    playSound EFFECT_COUNT s = .ok { s with played := s.played ++ [s.soundChunks "cyst_empty"] } := by
  simp [playSound, Mix_PlayChannel]

theorem before_loop_enter {K : Constants} {rng : Rng} {s s1 : Game} {category : EFFECT_TYPE}
    (h : before_loop K rng s = .ok (.enter_loop s1 category)) :
    (rng.prob ≤ K.POS_PROB ∧ category = POSITIVE ∧ heal_precheck K s = .ok s1 ∧
        countActivePositive s1.effects < K.cyst_neg_start) ∨
      (¬ rng.prob ≤ K.POS_PROB ∧ category = NEGATIVE ∧ s1 = s ∧
        countActiveNegative s.effects < K.cyst_effect_count - K.cyst_neg_start) := by
  unfold before_loop at h
  by_cases hp : rng.prob ≤ K.POS_PROB
  · rw [if_pos hp] at h
    simp only [bind, Except.bind] at h
    cases hh : heal_precheck K s with
    | error err => simp [hh] at h
    | ok s2 =>
      simp only [hh] at h
      by_cases hc : countActivePositive s2.effects ≥ K.cyst_neg_start
      · rw [if_pos hc, playSound_EFFECT_COUNT] at h
        simp [pure, Except.pure] at h
      · rw [if_neg hc] at h
        simp only [pure, Except.pure, Except.ok.injEq, Entry.enter_loop.injEq] at h
        obtain ⟨h1, h2⟩ := h
        subst h1 h2
        exact Or.inl ⟨hp, rfl, rfl, Nat.lt_of_not_ge hc⟩
  · rw [if_neg hp] at h
    by_cases hc : countActiveNegative s.effects ≥ K.cyst_effect_count - K.cyst_neg_start
    · simp only [bind, Except.bind] at h
      rw [if_pos hc, playSound_EFFECT_COUNT] at h
      simp [pure, Except.pure] at h
    · simp only [bind, Except.bind] at h
      rw [if_neg hc] at h
      simp only [pure, Except.pure, Except.ok.injEq, Entry.enter_loop.injEq] at h
      obtain ⟨h1, h2⟩ := h
      subst h1 h2
      exact Or.inr ⟨hp, rfl, rfl, Nat.lt_of_not_ge hc⟩

theorem rejection_loop_ge (effects : List Effect) (offset : Nat) (draws : List Nat)
    (id : CYST_EFFECT_ID) (h : rejection_loop effects offset draws = .ok id) : offset ≤ id := by
  induction draws with
  | nil => simp [rejection_loop] at h
  | cons d ds ih =>
    simp only [rejection_loop, bind, Except.bind] at h
    cases hg : getEffect effects (d + offset) with
    | error err => simp [hg] at h
    | ok e =>
      simp only [hg] at h
      by_cases ha : e.is_active = true
      · simp only [ha, if_true] at h
        exact ih h
      · simp only [ha] at h
        have hid : d + offset = id := by simpa [pure, Except.pure] using h
        omega

/-! ## Lemmas on `step` -/

theorem movement_frame (G : Glm) (w : World) :
    (movement G w).deathTimers = w.deathTimers ∧
      (movement G w).screen_darken_factor = w.screen_darken_factor ∧
      (movement G w).playerHealthBar.currentHealthPercentage =
        w.playerHealthBar.currentHealthPercentage ∧
      (movement G w).playerHealthBar.timer_ms = w.playerHealthBar.timer_ms ∧
      (movement G w).playerHealthBar.targetHealthPercentage ≤
        w.playerHealthBar.targetHealthPercentage := by
  simp only [movement, set_velocity]
  by_cases h : w.keys_pressed.H = true
  · simp [h]
  · simp [h]

theorem direction_frame (C : WorldConstants) (G : Glm) (w : World) :
    (direction C G w).deathTimers = w.deathTimers ∧
      (direction C G w).screen_darken_factor = w.screen_darken_factor ∧
      (direction C G w).playerHealthBar = w.playerHealthBar :=
  ⟨rfl, rfl, rfl⟩

theorem step_tail_frame (C : WorldConstants) (G : Glm) (w : World) :
    (step_tail C G w).deathTimers = w.deathTimers ∧
      (step_tail C G w).screen_darken_factor = w.screen_darken_factor ∧
      (step_tail C G w).playerHealthBar.currentHealthPercentage =
        w.playerHealthBar.currentHealthPercentage ∧
      (step_tail C G w).playerHealthBar.timer_ms = w.playerHealthBar.timer_ms ∧
      (step_tail C G w).playerHealthBar.targetHealthPercentage ≤
        w.playerHealthBar.targetHealthPercentage := by
  unfold step_tail
  obtain ⟨d1, d2, d3⟩ := direction_frame C G
    (if w.allow_accel then movement G w else { w with allow_accel := true })
  rw [d1, d2, d3]
  by_cases h : w.allow_accel = true
  · simp only [h, if_true]
    exact movement_frame G w
  · simp [h]

theorem step_no_timers_idle (C : WorldConstants) (G : Glm) (elapsed_ms : ℚ) (w : World)
    (hd : w.deathTimers = [])
    (hidle : ¬ (w.playerHealthBar.currentHealthPercentage ≠ w.playerHealthBar.targetHealthPercentage
      ∧ w.playerHealthBar.timer_ms > 0)) :
    step C G elapsed_ms w = .continued (step_tail C G { w with screen_darken_factor := 0 }) := by
  have hid : ({ w with deathTimers := [] } : World) = w := by rw [← hd]
  simp [step, hd, death_timer_loop, hidle, step_tail, hid]

theorem step_no_timers_running (C : WorldConstants) (G : Glm) (elapsed_ms : ℚ) (w : World)
    (hd : w.deathTimers = [])
    (hne : w.playerHealthBar.currentHealthPercentage ≠ w.playerHealthBar.targetHealthPercentage)
    (hcur : 0 < w.playerHealthBar.currentHealthPercentage)
    (hrun : elapsed_ms ≤ w.playerHealthBar.timer_ms) (hpos : 0 < w.playerHealthBar.timer_ms) :
    ∃ d, step C G elapsed_ms w = .continued (step_tail C G
      { w with playerHealthBar :=
                { w.playerHealthBar with timer_ms := w.playerHealthBar.timer_ms - elapsed_ms },
               screen_darken_factor := d }) := by
  have hid : ({ w with deathTimers := [] } : World) = w := by rw [← hd]
  have h1 : ¬ (w.playerHealthBar.timer_ms - elapsed_ms < 0) := by linarith
  have h2 : ¬ (w.playerHealthBar.currentHealthPercentage ≤ 0) := by linarith
  refine ⟨1 - (if w.playerHealthBar.timer_ms - elapsed_ms < 3000 ∧
      w.playerHealthBar.targetHealthPercentage ≤ 0 then w.playerHealthBar.timer_ms - elapsed_ms
      else 3000) / 3000, ?_⟩
  simp only [step, hd, death_timer_loop, hid]
  rw [if_pos ⟨hne, hpos⟩]
  simp only [h1, if_false, h2]

theorem step_overrun_restarts (C : WorldConstants) (G : Glm) (elapsed_ms : ℚ) (w : World)
    (hd : w.deathTimers = [])
    (hne : w.playerHealthBar.currentHealthPercentage ≠ w.playerHealthBar.targetHealthPercentage)
    (ht : w.playerHealthBar.targetHealthPercentage ≤ 0)
    (hpos : 0 < w.playerHealthBar.timer_ms) (hover : w.playerHealthBar.timer_ms < elapsed_ms) :
    ∃ r, step C G elapsed_ms w = .restarted r ∧
      r.playerHealthBar.currentHealthPercentage = w.playerHealthBar.targetHealthPercentage := by
  have h1 : w.playerHealthBar.timer_ms - elapsed_ms < 0 := by linarith
  refine ⟨{ w with
      playerHealthBar :=
        { w.playerHealthBar with
          timer_ms := C.HEALTH_BAR_UPDATE_TIME_SLAP,
          currentHealthPercentage := w.playerHealthBar.targetHealthPercentage },
      screen_darken_factor := 0 }, ?_, rfl⟩
  simp only [step, hd, death_timer_loop]
  rw [if_pos ⟨hne, hpos⟩]
  simp only [h1, if_true, ht]

theorem run_frames_append (C : WorldConstants) (G : Glm) (a b : List Frame) (w w1 : World)
    (h : run_frames C G a w = .continued w1) :
    run_frames C G (a ++ b) w = run_frames C G b w1 := by
  induction a generalizing w with
  | nil =>
    simp only [run_frames, StepResult.continued.injEq] at h
    subst h
    rfl
  | cons f fs ih =>
    simp only [run_frames, List.cons_append] at h ⊢
    cases hs : step C G f.elapsed_ms { w with keys_pressed := f.keys_pressed, mouse := f.mouse } with
    | restarted r => simp [hs] at h
    | continued w2 =>
      simp only [hs] at h ⊢
      exact ih w2 h

theorem sum_elapsed_nonneg (frames : List Frame) (hpos : ∀ f ∈ frames, 0 < f.elapsed_ms) :
    0 ≤ (frames.map (fun f => f.elapsed_ms)).sum := by
  induction frames with
  | nil => simp
  | cons f fs ih =>
    simp only [List.map_cons, List.sum_cons]
    have h1 := hpos f (List.mem_cons_self _ _)
    have h2 := ih (fun g hg => hpos g (List.mem_cons_of_mem _ hg))
    linarith

theorem run_frames_countdown (C : WorldConstants) (G : Glm) (frames : List Frame) (w : World)
    (hpos : ∀ f ∈ frames, 0 < f.elapsed_ms) (hd : w.deathTimers = [])
    (hc : w.playerHealthBar.currentHealthPercentage = 50)
    (ht : w.playerHealthBar.targetHealthPercentage ≤ 0)
    (htm : w.playerHealthBar.timer_ms = (frames.map (fun f => f.elapsed_ms)).sum) :
    ∃ w1, run_frames C G frames w = .continued w1 ∧ w1.deathTimers = [] ∧
      w1.playerHealthBar.currentHealthPercentage = 50 ∧ w1.playerHealthBar.timer_ms = 0 := by
  induction frames generalizing w with
  | nil => exact ⟨w, rfl, hd, hc, by simpa using htm⟩
  | cons f fs ih =>
    have hf := hpos f (List.mem_cons_self _ _)
    have hrest := sum_elapsed_nonneg fs (fun g hg => hpos g (List.mem_cons_of_mem _ hg))
    simp only [List.map_cons, List.sum_cons] at htm
    obtain ⟨d, hstep⟩ := step_no_timers_running C G f.elapsed_ms
      { w with keys_pressed := f.keys_pressed, mouse := f.mouse } hd
      (by show w.playerHealthBar.currentHealthPercentage ≠ w.playerHealthBar.targetHealthPercentage
          rw [hc]; intro h; rw [← h] at ht; norm_num at ht)
      (by show 0 < w.playerHealthBar.currentHealthPercentage
          rw [hc]; norm_num)
      (by show f.elapsed_ms ≤ w.playerHealthBar.timer_ms
          linarith)
      (by show 0 < w.playerHealthBar.timer_ms
          linarith)
    simp only [run_frames, hstep]
    obtain ⟨t1, _, t3, t4, t5⟩ := step_tail_frame C G
      { w with keys_pressed := f.keys_pressed, mouse := f.mouse,
               playerHealthBar :=
                { w.playerHealthBar with timer_ms := w.playerHealthBar.timer_ms - f.elapsed_ms },
               screen_darken_factor := d }
    apply ih _ (fun g hg => hpos g (List.mem_cons_of_mem _ hg))
    · rw [t1]; exact hd
    · rw [t3]; exact hc
    · exact le_trans t5 ht
    · rw [t4]
      show w.playerHealthBar.timer_ms - f.elapsed_ms = _
      linarith

theorem run_frames_frozen (C : WorldConstants) (G : Glm) (frames : List Frame) (w : World)
    (hd : w.deathTimers = []) (htm : w.playerHealthBar.timer_ms = 0) :
    ∃ w1, run_frames C G frames w = .continued w1 ∧
      w1.playerHealthBar.currentHealthPercentage = w.playerHealthBar.currentHealthPercentage := by
  induction frames generalizing w with
  | nil => exact ⟨w, rfl, rfl⟩
  | cons f fs ih =>
    have hstep := step_no_timers_idle C G f.elapsed_ms
      { w with keys_pressed := f.keys_pressed, mouse := f.mouse } hd
      (by show ¬ (_ ∧ w.playerHealthBar.timer_ms > 0)
          rw [htm]; simp)
    simp only [run_frames, hstep]
    obtain ⟨t1, _, t3, t4, _⟩ := step_tail_frame C G
      { w with keys_pressed := f.keys_pressed, mouse := f.mouse, screen_darken_factor := 0 }
    obtain ⟨w1, h1, h2⟩ := ih _ (by rw [t1]; exact hd) (by rw [t4]; exact htm)
    exact ⟨w1, h1, by rw [h2, t3]⟩

theorem foldl_min_le (l : List ℚ) (m : ℚ) : l.foldl min m ≤ m := by
  induction l generalizing m with
  | nil => simp
  | cons x xs ih =>
    simp only [List.foldl_cons]
    exact le_trans (ih _) (min_le_left _ _)

theorem foldl_min_nonneg (l : List ℚ) (m : ℚ) (hm : 0 ≤ m) (hl : ∀ x ∈ l, 0 ≤ x) :
    0 ≤ l.foldl min m := by
  induction l generalizing m with
  | nil => simpa using hm
  | cons x xs ih =>
    simp only [List.foldl_cons]
    exact ih _ (le_min hm (hl x (List.mem_cons_self _ _)))
      (fun y hy => hl y (List.mem_cons_of_mem _ hy))

theorem death_timer_loop_done (elapsed_ms : ℚ) (timers timers' : List DeathTimer) (m m' : ℚ)
    (h : death_timer_loop elapsed_ms timers m = .done timers' m') :
    m' = (timers.map (fun t => t.timer_ms - elapsed_ms)).foldl min m ∧
      ∀ x ∈ timers.map (fun t => t.timer_ms - elapsed_ms), 0 ≤ x := by
  induction timers generalizing m m' timers' with
  | nil =>
    simp only [death_timer_loop, DeathLoop.done.injEq] at h
    simp [h.2]
  | cons t ts ih =>
    simp only [death_timer_loop] at h
    by_cases hneg : t.timer_ms - elapsed_ms < 0
    · simp [hneg] at h
    · simp only [hneg, if_false] at h
      have hmin : (if t.timer_ms - elapsed_ms < m then t.timer_ms - elapsed_ms else m) =
          min m (t.timer_ms - elapsed_ms) := by
        rw [min_def]
        split_ifs <;> linarith
      rw [hmin] at h
      cases hrec : death_timer_loop elapsed_ms ts (min m (t.timer_ms - elapsed_ms)) with
      | expired r => simp [hrec] at h
      | done r m2 =>
        simp only [hrec, DeathLoop.done.injEq] at h
        obtain ⟨h1, h2⟩ := ih _ _ _ hrec
        refine ⟨?_, ?_⟩
        · rw [← h.2, h1]
          simp
        · intro x hx
          simp only [List.map_cons, List.mem_cons] at hx
          rcases hx with hx | hx
          · rw [hx]
            linarith
          · exact h2 x hx

/-! ## Lemmas on the player's health -/

theorem setActiveTimer_health {K : Constants} {id : CYST_EFFECT_ID} {timer : ℚ} {s s' : Game}
    (h : setActiveTimer K id timer s = .ok s') : s'.health = s.health := by
  obtain ⟨effects, _, hs⟩ := setActiveTimer_spec h
  rw [hs]

theorem heal_precheck_health {K : Constants} {s s' : Game} (h : heal_precheck K s = .ok s') :
    s'.health = s.health := by
  obtain ⟨heal, _, hcase⟩ := heal_precheck_spec h
  rcases hcase with ⟨_, _, h3⟩ | ⟨_, h3⟩
  · exact setActiveTimer_health h3
  · rw [h3]

theorem playSound_spec {id : CYST_EFFECT_ID} {s s' : Game} (h : playSound id s = .ok s') :
    ∃ played, s' = { s with played := played } := by
  unfold playSound at h
  by_cases hid : id = EFFECT_COUNT
  · rw [if_pos hid] at h
    simp only [Except.ok.injEq] at h
    exact ⟨_, h.symm⟩
  · rw [if_neg hid] at h
    simp only [bind, Except.bind] at h
    cases hg : getEffect s.effects id with
    | error err => simp [hg] at h
    | ok e =>
      simp only [hg, pure, Except.pure] at h
      cases ht : e.type with
      | POSITIVE =>
        simp only [ht, if_true, Except.ok.injEq] at h
        exact ⟨_, h.symm⟩
      | NEGATIVE =>
        simp only [ht, reduceCtorEq, if_false, if_true, Except.ok.injEq] at h
        exact ⟨_, h.symm⟩

theorem clear_screen_loop_spec (G : Glm) (K : Constants) (camPos : Vec2) (enemies : List Enemy)
    (s : Game) : ∃ dying, clear_screen_loop G K camPos enemies s = { s with dying := dying } := by
  induction enemies generalizing s with
  | nil => exact ⟨s.dying, rfl⟩
  | cons en rest ih =>
    simp only [clear_screen_loop]
    split
    · obtain ⟨d, hd⟩ := ih (startEntityDeath en.entity s)
      exact ⟨d, by rw [hd]; rfl⟩
    · exact ih s

theorem run_handler_health {G : Glm} {K : Constants} {id : CYST_EFFECT_ID} {s s' : Game}
    (hid : id ≠ HEAL) (h : run_handler G K id s = .ok s') : s'.health = s.health := by
  unfold run_handler at h
  rw [if_neg hid] at h
  split_ifs at h
  · simp only [pure, Except.pure, Except.ok.injEq] at h
    rw [← h]; rfl
  · unfold handle_clear_screen at h
    obtain ⟨d, hd⟩ := clear_screen_loop_spec G K s.camera s.enemies s
    rw [hd] at h
    rw [setActiveTimer_health h]
  · simp only [pure, Except.pure, Except.ok.injEq] at h
    rw [← h]; rfl
  · simp only [pure, Except.pure, Except.ok.injEq] at h
    rw [← h]
    simp only [handle_fov_effect, displayEffect, Mix_Volume]
    split <;> rfl
  · simp only [pure, Except.pure, Except.ok.injEq] at h
    rw [← h]; rfl
  · simp only [pure, Except.pure, Except.ok.injEq] at h
    rw [← h]; rfl
  · simp only [pure, Except.pure, Except.ok.injEq] at h
    rw [← h]

theorem dispatch_health {G : Glm} {K : Constants} {id : CYST_EFFECT_ID} {s s' : Game}
    (hid : id ≠ HEAL) (h : dispatch G K id s = .ok s') : s'.health = s.health := by
  simp only [dispatch, bind, Except.bind] at h
  cases hs : setIsActive s.effects id true with
  | error err => simp [hs] at h
  | ok effects =>
    simp only [hs] at h
    cases hr : run_handler G K id { s with effects := effects } with
    | error err => simp [hr] at h
    | ok s2 =>
      simp only [hr] at h
      obtain ⟨played, hp⟩ := playSound_spec h
      rw [hp]
      have hh := run_handler_health hid hr
      exact hh

theorem before_loop_early {K : Constants} {rng : Rng} {s s1 : Game}
    (h : before_loop K rng s = .ok (.early_return s1)) :
    ∃ s2, ((rng.prob ≤ K.POS_PROB ∧ heal_precheck K s = .ok s2) ∨
        (¬ rng.prob ≤ K.POS_PROB ∧ s2 = s)) ∧
      s1 = { s2 with played := s2.played ++ [s2.soundChunks "cyst_empty"] } := by
  unfold before_loop at h
  by_cases hp : rng.prob ≤ K.POS_PROB
  · rw [if_pos hp] at h
    simp only [bind, Except.bind] at h
    cases hh : heal_precheck K s with
    | error err => simp [hh] at h
    | ok s2 =>
      simp only [hh] at h
      by_cases hc : countActivePositive s2.effects ≥ K.cyst_neg_start
      · rw [if_pos hc, playSound_EFFECT_COUNT] at h
        simp only [pure, Except.pure, Except.ok.injEq, Entry.early_return.injEq] at h
        exact ⟨s2, Or.inl ⟨hp, rfl⟩, h.symm⟩
      · rw [if_neg hc] at h
        simp [pure, Except.pure] at h
  · rw [if_neg hp] at h
    simp only [bind, Except.bind] at h
    by_cases hc : countActiveNegative s.effects ≥ K.cyst_effect_count - K.cyst_neg_start
    · rw [if_pos hc, playSound_EFFECT_COUNT] at h
      simp only [pure, Except.pure, Except.ok.injEq, Entry.early_return.injEq] at h
      exact ⟨s, Or.inr ⟨hp, rfl⟩, h.symm⟩
    · rw [if_neg hc] at h
      simp [pure, Except.pure] at h

theorem select_effect_health {K : Constants} {rng : Rng} {s s1 : Game}
    {r : Option CYST_EFFECT_ID} (h : select_effect K rng s = .ok (s1, r)) :
    s1.health = s.health := by
  simp only [select_effect, bind, Except.bind] at h
  cases hb : before_loop K rng s with
  | error err => simp [hb] at h
  | ok entry =>
    simp only [hb] at h
    cases entry with
    | early_return s2 =>
      simp only [pure, Except.pure, Except.ok.injEq, Prod.mk.injEq] at h
      obtain ⟨s3, hcase, hs3⟩ := before_loop_early hb
      rw [← h.1, hs3]
      rcases hcase with ⟨_, h2⟩ | ⟨_, h2⟩
      · exact (heal_precheck_health h2 : s3.health = s.health)
      · rw [h2]
    | enter_loop s2 category =>
      simp only at h
      cases hl : rejection_loop s2.effects (draw_offset K category) rng.draws with
      | error err => simp [hl] at h
      | ok id2 =>
        simp only [hl, pure, Except.pure, Except.ok.injEq, Prod.mk.injEq] at h
        rw [← h.1]
        rcases before_loop_enter hb with ⟨_, _, h3, _⟩ | ⟨_, _, h3, _⟩
        · exact heal_precheck_health h3
        · rw [h3]

theorem heal_precheck_full {K : Constants} {s s' : Game} (hfull : s.health ≥ K.MAX_HEALTH)
    (h : heal_precheck K s = .ok s') :
    ∃ e, getEffect s'.effects HEAL = .ok e ∧ e.is_active = true := by
  obtain ⟨heal, hheal, hcase⟩ := heal_precheck_spec h
  rcases hcase with ⟨_, _, h3⟩ | ⟨h1, h3⟩
  · obtain ⟨effects, hset, hs⟩ := setActiveTimer_spec h3
    obtain ⟨⟨e, _, h5⟩, _, _⟩ := setIsActive_spec hset
    rw [hs]
    exact ⟨_, h5, rfl⟩
  · rw [h3]
    refine ⟨heal, hheal, ?_⟩
    by_contra hc
    exact h1 ⟨by simpa using hc, hfull⟩

/-! ## Lemmas for the loop entry -/

theorem TableLayout.of_map_eq {K : Constants} {l l' : List Effect} (hT : TableLayout K l)
    (hm : l'.map (fun e => (e.id, e.type)) = l.map (fun e => (e.id, e.type))) :
    TableLayout K l' := by
  obtain ⟨h1, h2, h3⟩ := hT
  refine ⟨?_, ?_, h3⟩
  · have := congrArg (List.map Prod.fst) hm
    simp only [List.map_map] at this
    rw [← h1]
    exact this
  · intro x hx
    have hx2 : (x.id, x.type) ∈ l.map (fun e => (e.id, e.type)) := by
      rw [← hm]
      exact List.mem_map_of_mem (fun e : Effect => (e.id, e.type)) hx
    obtain ⟨y, hy, hxy⟩ := List.mem_map.1 hx2
    simp only [Prod.mk.injEq] at hxy
    rw [← hxy.1, ← hxy.2]
    exact h2 y hy

theorem TableLayout.heal_precheck {K : Constants} {s s' : Game} (hT : TableLayout K s.effects)
    (h : heal_precheck K s = .ok s') : TableLayout K s'.effects := by
  obtain ⟨heal, _, hcase⟩ := heal_precheck_spec h
  rcases hcase with ⟨_, _, h3⟩ | ⟨_, h3⟩
  · obtain ⟨effects, hset, hs⟩ := setActiveTimer_spec h3
    rw [hs]
    exact hT.setIsActive hset
  · rw [h3]
    exact hT

theorem exists_inactive_positive {K : Constants} {l : List Effect} (hT : TableLayout K l)
    (h : countActivePositive l < K.cyst_neg_start) :
    ∃ e ∈ l, e.type = POSITIVE ∧ e.is_active = false := by
  by_contra hc
  have hall : ∀ e ∈ l, e.type = POSITIVE → e.is_active = true := by
    intro e he hp
    by_contra ha
    exact hc ⟨e, he, hp, by simpa using ha⟩
  rw [countActivePositive_of_all hT hall] at h
  exact Nat.lt_irrefl _ h

theorem exists_inactive_negative {K : Constants} {l : List Effect} (hT : TableLayout K l)
    (h : countActiveNegative l < K.cyst_effect_count - K.cyst_neg_start) :
    ∃ e ∈ l, e.type = NEGATIVE ∧ e.is_active = false := by
  by_contra hc
  have hall : ∀ e ∈ l, e.type = NEGATIVE → e.is_active = true := by
    intro e he hp
    by_contra ha
    exact hc ⟨e, he, hp, by simpa using ha⟩
  rw [countActiveNegative_of_all hT hall] at h
  exact Nat.lt_irrefl _ h

/-! ## Lemmas on pending reversals -/

theorem FlagSet.again {l l1 l2 : List Effect} {id : CYST_EFFECT_ID} {b : Bool}
    (h1 : FlagSet l l1 id b) (h2 : FlagSet l1 l2 id b) : FlagSet l l2 id b := by
  obtain ⟨⟨e, he, he1⟩, ho, hm⟩ := h1
  obtain ⟨⟨e1, he1', he2⟩, ho2, hm2⟩ := h2
  rw [he1] at he1'
  simp only [Except.ok.injEq] at he1'
  subst he1'
  exact ⟨⟨e, he, he2⟩, fun id' hne => (ho2 id' hne).trans (ho id' hne), hm2.trans hm⟩

theorem countP_eraseIdx {α : Type} (p : α → Bool) (l : List α) (i : Nat) (a : α)
    (h : l[i]? = some a) :
    (l.eraseIdx i).countP p + (if p a then 1 else 0) = l.countP p := by
  induction l generalizing i with
  | nil => simp at h
  | cons x xs ih =>
    cases i with
    | zero =>
      simp only [List.getElem?_cons_zero, Option.some.injEq] at h
      subst h
      simp [List.countP_cons]
    | succ j =>
      simp only [List.getElem?_cons_succ] at h
      simp only [List.eraseIdx_cons_succ, List.countP_cons]
      have := ih j h
      omega

theorem consistent_activate {s s' : Game} {id : CYST_EFFECT_ID} {ev : TimedEvent}
    (hc : Consistent s) (hf : FlagSet s.effects s'.effects id true)
    (hin : ∃ e, getEffect s.effects id = .ok e ∧ e.is_active = false)
    (hev : s'.timedEvents = s.timedEvents ++ [ev]) (ht : ev.callback.target = id) :
    Consistent s' := by
  intro id'
  obtain ⟨⟨e, he, he'⟩, ho, _⟩ := hf
  obtain ⟨e0, he0, hina⟩ := hin
  rw [he] at he0
  simp only [Except.ok.injEq] at he0
  subst he0
  have hold := hc id'
  simp only [pending, active_flag] at hold ⊢
  rw [hev, List.countP_append]
  by_cases hid : id' = id
  · subst hid
    simp only [he, hina, Bool.false_eq_true, if_false] at hold
    simp [he', hold, ht]
  · rw [ho id' hid, hold]
    have : ¬ ev.callback.target = id' := by rw [ht]; exact fun h => hid h.symm
    simp [this]

theorem consistent_deactivate {s s' : Game} {i : Nat} {ev : TimedEvent}
    (hc : Consistent s) (hget : s.timedEvents[i]? = some ev)
    (hf : FlagSet s.effects s'.effects ev.callback.target false)
    (hev : s'.timedEvents = s.timedEvents.eraseIdx i) : Consistent s' := by
  intro id'
  obtain ⟨⟨e, he, he'⟩, ho, _⟩ := hf
  have hold := hc id'
  have hcount := countP_eraseIdx (fun x : TimedEvent => decide (x.callback.target = id'))
    s.timedEvents i ev hget
  simp only [pending, active_flag] at hold ⊢
  rw [hev]
  by_cases hid : id' = ev.callback.target
  · subst hid
    simp only [he] at hold
    simp only [decide_True, if_true] at hcount
    simp only [he', Bool.false_eq_true, if_false]
    have : (if e.is_active = true then 1 else 0) ≤ 1 := by split <;> omega
    omega
  · rw [ho id' hid, ← hold]
    have : ¬ ev.callback.target = id' := fun h => hid h.symm
    simp only [this, decide_False, Bool.false_eq_true, if_false, Nat.add_zero] at hcount
    exact hcount

theorem consistent_of_same {s s' : Game} (hc : Consistent s) (he : s'.effects = s.effects)
    (ht : s'.timedEvents = s.timedEvents) : Consistent s' := by
  intro id
  have := hc id
  simp only [pending, active_flag] at this ⊢
  rw [he, ht]
  exact this

theorem setActiveTimer_flagSet {K : Constants} {id : CYST_EFFECT_ID} {timer : ℚ} {s s' : Game}
    (h : setActiveTimer K id timer s = .ok s') :
    FlagSet s.effects s'.effects id true ∧
      ∃ ev, s'.timedEvents = s.timedEvents ++ [ev] ∧ ev.callback.target = id := by
  obtain ⟨effects, hset, hs⟩ := setActiveTimer_spec h
  rw [hs]
  exact ⟨setIsActive_spec hset, _, rfl, rfl⟩

theorem run_handler_spec {G : Glm} {K : Constants} {id : CYST_EFFECT_ID} {s s' : Game}
    (hid : id < EFFECT_COUNT) (h : run_handler G K id s = .ok s') :
    (FlagSet s.effects s'.effects id true ∨ s'.effects = s.effects) ∧
      ∃ ev, s'.timedEvents = s.timedEvents ++ [ev] ∧ ev.callback.target = id := by
  unfold run_handler at h
  split_ifs at h with h0 h1 h2 h3 h4 h5 h6
  · simp only [pure, Except.pure, Except.ok.injEq] at h
    rw [← h, h0]
    exact ⟨Or.inr rfl, _, rfl, rfl⟩
  · rw [h1]
    obtain ⟨hf, hev⟩ := setActiveTimer_flagSet h
    exact ⟨Or.inl hf, hev⟩
  · rw [h2]
    unfold handle_clear_screen at h
    obtain ⟨d, hd⟩ := clear_screen_loop_spec G K s.camera s.enemies s
    rw [hd] at h
    obtain ⟨hf, hev⟩ := setActiveTimer_flagSet h
    exact ⟨Or.inl hf, hev⟩
  · simp only [pure, Except.pure, Except.ok.injEq] at h
    rw [← h, h3]
    exact ⟨Or.inr rfl, _, rfl, rfl⟩
  · simp only [pure, Except.pure, Except.ok.injEq] at h
    rw [← h, h4]
    simp only [handle_fov_effect, displayEffect, Mix_Volume]
    split
    · exact ⟨Or.inr rfl, _, rfl, rfl⟩
    · exact ⟨Or.inr rfl, _, rfl, rfl⟩
  · simp only [pure, Except.pure, Except.ok.injEq] at h
    rw [← h, h5]
    exact ⟨Or.inr rfl, _, rfl, rfl⟩
  · simp only [pure, Except.pure, Except.ok.injEq] at h
    rw [← h, h6]
    exact ⟨Or.inr rfl, _, rfl, rfl⟩
  · exfalso
    have k : @LT.lt Nat _ id 7 := hid
    have k0 : ¬ @Eq Nat id 0 := h0
    have k1 : ¬ @Eq Nat id 1 := h1
    have k2 : ¬ @Eq Nat id 2 := h2
    have k3 : ¬ @Eq Nat id 3 := h3
    have k4 : ¬ @Eq Nat id 4 := h4
    have k5 : ¬ @Eq Nat id 5 := h5
    have k6 : ¬ @Eq Nat id 6 := h6
    omega

theorem dispatch_spec {G : Glm} {K : Constants} {id : CYST_EFFECT_ID} {s s' : Game}
    (hid : id < EFFECT_COUNT) (h : dispatch G K id s = .ok s') :
    FlagSet s.effects s'.effects id true ∧
      ∃ ev, s'.timedEvents = s.timedEvents ++ [ev] ∧ ev.callback.target = id := by
  simp only [dispatch, bind, Except.bind] at h
  cases hs : setIsActive s.effects id true with
  | error err => simp [hs] at h
  | ok effects =>
    simp only [hs] at h
    cases hr : run_handler G K id { s with effects := effects } with
    | error err => simp [hr] at h
    | ok s2 =>
      simp only [hr] at h
      obtain ⟨played, hp⟩ := playSound_spec h
      obtain ⟨hf, hev⟩ := run_handler_spec hid hr
      have hf0 : FlagSet s.effects effects id true := setIsActive_spec hs
      rw [hp]
      refine ⟨?_, hev⟩
      rcases hf with hf | hf
      · exact hf0.again hf
      · show FlagSet s.effects s2.effects id true
        rw [hf]
        exact hf0

theorem Callback.run_spec {K : Constants} {cb : Callback} {s s' : Game}
    (h : cb.run K s = .ok s') :
    FlagSet s.effects s'.effects cb.target false ∧ s'.timedEvents = s.timedEvents := by
  cases cb with
  | damage_restore a b c d =>
    simp only [Callback.run, bind, Except.bind] at h
    cases hs : setIsActive s.effects DAMAGE false with
    | error err => simp [hs] at h
    | ok effects =>
      simp only [hs, pure, Except.pure, Except.ok.injEq] at h
      rw [← h]
      exact ⟨setIsActive_spec hs, rfl⟩
  | slow_restore a b =>
    simp only [Callback.run, bind, Except.bind] at h
    cases hs : setIsActive s.effects SLOW false with
    | error err => simp [hs] at h
    | ok effects =>
      simp only [hs, pure, Except.pure, Except.ok.injEq] at h
      rw [← h]
      exact ⟨setIsActive_spec hs, rfl⟩
  | fov_restore v =>
    simp only [Callback.run, bind, Except.bind] at h
    have he : (Mix_Volume v { s with limit_fov := false }).effects = s.effects := by
      simp only [Mix_Volume]; split <;> rfl
    have ht : (Mix_Volume v { s with limit_fov := false }).timedEvents = s.timedEvents := by
      simp only [Mix_Volume]; split <;> rfl
    rw [he] at h
    cases hs : setIsActive s.effects FOV false with
    | error err => simp [hs] at h
    | ok effects =>
      simp only [hs, pure, Except.pure, Except.ok.injEq] at h
      rw [← h]
      exact ⟨setIsActive_spec hs, ht⟩
  | direction_restore =>
    simp only [Callback.run, bind, Except.bind] at h
    cases hs : setIsActive s.effects DIRECTION false with
    | error err => simp [hs] at h
    | ok effects =>
      simp only [hs, pure, Except.pure, Except.ok.injEq] at h
      rw [← h]
      exact ⟨setIsActive_spec hs, rfl⟩
  | no_attack_restore c =>
    simp only [Callback.run, bind, Except.bind] at h
    cases hs : setIsActive s.effects NO_ATTACK false with
    | error err => simp [hs] at h
    | ok effects =>
      simp only [hs, pure, Except.pure, Except.ok.injEq] at h
      rw [← h]
      exact ⟨setIsActive_spec hs, rfl⟩
  | set_inactive id =>
    simp only [Callback.run, bind, Except.bind] at h
    cases hs : setIsActive s.effects id false with
    | error err => simp [hs] at h
    | ok effects =>
      simp only [hs, pure, Except.pure, Except.ok.injEq] at h
      rw [← h]
      exact ⟨setIsActive_spec hs, rfl⟩

theorem consistent_heal_precheck {K : Constants} {s s' : Game}
    (hg : TableLayout K s.effects ∧ Consistent s) (h : heal_precheck K s = .ok s') :
    TableLayout K s'.effects ∧ Consistent s' := by
  refine ⟨hg.1.heal_precheck h, ?_⟩
  obtain ⟨heal, hheal, hcase⟩ := heal_precheck_spec h
  rcases hcase with ⟨hin, _, h3⟩ | ⟨_, h3⟩
  · obtain ⟨hf, ev, hev, ht⟩ := setActiveTimer_flagSet h3
    exact consistent_activate hg.2 hf ⟨heal, hheal, hin⟩ hev ht
  · rw [h3]
    exact hg.2

theorem consistent_select_effect {K : Constants} {rng : Rng} {s s1 : Game}
    {r : Option CYST_EFFECT_ID} (hg : TableLayout K s.effects ∧ Consistent s)
    (h : select_effect K rng s = .ok (s1, r)) :
    TableLayout K s1.effects ∧ Consistent s1 := by
  simp only [select_effect, bind, Except.bind] at h
  cases hb : before_loop K rng s with
  | error err => simp [hb] at h
  | ok entry =>
    simp only [hb] at h
    cases entry with
    | early_return s2 =>
      simp only [pure, Except.pure, Except.ok.injEq, Prod.mk.injEq] at h
      obtain ⟨s3, hcase, hs3⟩ := before_loop_early hb
      rw [← h.1, hs3]
      rcases hcase with ⟨_, h2⟩ | ⟨_, h2⟩
      · have h3 := consistent_heal_precheck hg h2
        exact ⟨h3.1, consistent_of_same h3.2 rfl rfl⟩
      · rw [h2]
        exact ⟨hg.1, consistent_of_same hg.2 rfl rfl⟩
    | enter_loop s2 category =>
      simp only at h
      cases hl : rejection_loop s2.effects (draw_offset K category) rng.draws with
      | error err => simp [hl] at h
      | ok id2 =>
        simp only [hl, pure, Except.pure, Except.ok.injEq, Prod.mk.injEq] at h
        rw [← h.1]
        rcases before_loop_enter hb with ⟨_, _, h3, _⟩ | ⟨_, _, h3, _⟩
        · exact consistent_heal_precheck hg h3
        · rw [h3]
          exact hg

theorem consistent_apply_random_effect {G : Glm} {K : Constants} {rng : Rng} {s s' : Game}
    (hcount : K.cyst_effect_count ≤ EFFECT_COUNT)
    (hg : TableLayout K s.effects ∧ Consistent s)
    (h : apply_random_effect G K rng s = .ok s') :
    TableLayout K s'.effects ∧ Consistent s' := by
  simp only [apply_random_effect, bind, Except.bind] at h
  cases hs : select_effect K rng s with
  | error err => simp [hs] at h
  | ok res =>
    obtain ⟨s1, r⟩ := res
    simp only [hs] at h
    have hg1 := consistent_select_effect hg hs
    cases r with
    | none =>
      simp only [pure, Except.pure, Except.ok.injEq] at h
      rw [← h]
      exact hg1
    | some id =>
      simp only at h
      obtain ⟨category, _, hl⟩ := select_effect_some K rng s s1 id hs
      obtain ⟨e, he, hin⟩ := rejection_loop_inactive _ _ _ _ hl
      have hid : id < EFFECT_COUNT := Nat.lt_of_lt_of_le (hg1.1.getEffect_lt he).1 hcount
      obtain ⟨hf, ev, hev, ht⟩ := dispatch_spec hid h
      exact ⟨hg1.1.of_map_eq hf.2.2, consistent_activate hg1.2 hf ⟨e, he, hin⟩ hev ht⟩

theorem consistent_expire {K : Constants} {i : Nat} {s s' : Game}
    (hg : TableLayout K s.effects ∧ Consistent s) (h : expire K i s = .ok s') :
    TableLayout K s'.effects ∧ Consistent s' := by
  unfold expire at h
  cases hget : s.timedEvents[i]? with
  | none => simp [hget] at h
  | some ev =>
    simp only [hget, bind, Except.bind] at h
    cases hr : ev.callback.run K s with
    | error err => simp [hr] at h
    | ok s2 =>
      simp only [hr, pure, Except.pure, Except.ok.injEq] at h
      obtain ⟨hf, hev⟩ := Callback.run_spec hr
      rw [← h]
      refine ⟨hg.1.of_map_eq hf.2.2, ?_⟩
      have hq : ({ s2 with timedEvents := s2.timedEvents.eraseIdx i } : Game).timedEvents =
          s.timedEvents.eraseIdx i := by
        show s2.timedEvents.eraseIdx i = s.timedEvents.eraseIdx i
        rw [hev]
      exact consistent_deactivate hg.2 hget hf hq

theorem consistent_run_actions {G : Glm} {K : Constants} (acts : List Action) {s s' : Game}
    (hcount : K.cyst_effect_count ≤ EFFECT_COUNT)
    (hg : TableLayout K s.effects ∧ Consistent s)
    (h : run_actions G K acts s = .ok s') :
    TableLayout K s'.effects ∧ Consistent s' := by
  induction acts generalizing s with
  | nil =>
    simp only [run_actions, Except.ok.injEq] at h
    rw [← h]
    exact hg
  | cons a rest ih =>
    simp only [run_actions] at h
    cases ha : a.run G K s with
    | error err => simp [ha] at h
    | ok s1 =>
      simp only [ha] at h
      apply ih _ h
      cases a with
      | apply rng health =>
        exact consistent_apply_random_effect hcount
          (s := { s with health := health }) ⟨hg.1, consistent_of_same hg.2 rfl rfl⟩ ha
      | expire i => exact consistent_expire hg ha

theorem consistent_initial {s : Game} (hinit : ∀ e ∈ s.effects, e.is_active = false)
    (hq : s.timedEvents = []) : Consistent s := by
  intro id
  simp only [pending, active_flag, hq, List.countP_nil]
  cases hg : getEffect s.effects id with
  | error err => rfl
  | ok e => simp [hinit e (getEffect_mem hg).1]

/-! ## Lemmas on the weapon's attack delay -/

theorem heal_precheck_frame {K : Constants} {s s' : Game} (h : heal_precheck K s = .ok s') :
    ∃ effects events, s' = { s with effects := effects, timedEvents := events } ∧
      effects.map (fun e => (e.id, e.type)) = s.effects.map (fun e => (e.id, e.type)) := by
  obtain ⟨heal, _, hcase⟩ := heal_precheck_spec h
  rcases hcase with ⟨_, _, h3⟩ | ⟨_, h3⟩
  · obtain ⟨effects, hset, hs⟩ := setActiveTimer_spec h3
    exact ⟨effects, _, hs, (setIsActive_spec hset).2.2⟩
  · exact ⟨s.effects, s.timedEvents, h3, rfl⟩

theorem select_effect_frame {K : Constants} {rng : Rng} {s s1 : Game}
    {r : Option CYST_EFFECT_ID} (h : select_effect K rng s = .ok (s1, r)) :
    ∃ effects events played,
      s1 = { s with effects := effects, timedEvents := events, played := played } ∧
      effects.map (fun e => (e.id, e.type)) = s.effects.map (fun e => (e.id, e.type)) := by
  simp only [select_effect, bind, Except.bind] at h
  cases hb : before_loop K rng s with
  | error err => simp [hb] at h
  | ok entry =>
    simp only [hb] at h
    cases entry with
    | early_return s2 =>
      simp only [pure, Except.pure, Except.ok.injEq, Prod.mk.injEq] at h
      obtain ⟨s3, hcase, hs3⟩ := before_loop_early hb
      rw [← h.1, hs3]
      rcases hcase with ⟨_, h2⟩ | ⟨_, h2⟩
      · obtain ⟨effects, events, h4, h5⟩ := heal_precheck_frame h2
        rw [h4]
        exact ⟨effects, events, _, rfl, h5⟩
      · rw [h2]
        exact ⟨s.effects, s.timedEvents, _, rfl, rfl⟩
    | enter_loop s2 category =>
      simp only at h
      cases hl : rejection_loop s2.effects (draw_offset K category) rng.draws with
      | error err => simp [hl] at h
      | ok id2 =>
        simp only [hl, pure, Except.pure, Except.ok.injEq, Prod.mk.injEq] at h
        rw [← h.1]
        rcases before_loop_enter hb with ⟨_, _, h3, _⟩ | ⟨_, _, h3, _⟩
        · obtain ⟨effects, events, h4, h5⟩ := heal_precheck_frame h3
          rw [h4]
          exact ⟨effects, events, s.played, rfl, h5⟩
        · rw [h3]
          exact ⟨s.effects, s.timedEvents, s.played, rfl, rfl⟩

theorem setActiveTimer_frame {K : Constants} {id : CYST_EFFECT_ID} {timer : ℚ} {s s' : Game}
    (h : setActiveTimer K id timer s = .ok s') :
    s'.weapon = s.weapon ∧
      s'.effects.map (fun e => (e.id, e.type)) = s.effects.map (fun e => (e.id, e.type)) := by
  obtain ⟨effects, hset, hs⟩ := setActiveTimer_spec h
  rw [hs]
  exact ⟨rfl, (setIsActive_spec hset).2.2⟩

theorem run_handler_attack_delay {G : Glm} {K : Constants} {id : CYST_EFFECT_ID} {s s' : Game}
    (hid : id ≠ DAMAGE) (h : run_handler G K id s = .ok s')
    (hd : s.weapon.attack_delay = 99999) :
    s'.weapon.attack_delay = 99999 ∧
      s'.effects.map (fun e => (e.id, e.type)) = s.effects.map (fun e => (e.id, e.type)) := by
  unfold run_handler at h
  rw [if_neg hid] at h
  split_ifs at h
  · obtain ⟨h1, h2⟩ := setActiveTimer_frame h
    exact ⟨by rw [h1]; exact hd, h2⟩
  · unfold handle_clear_screen at h
    obtain ⟨d, hdy⟩ := clear_screen_loop_spec G K s.camera s.enemies s
    rw [hdy] at h
    obtain ⟨h1, h2⟩ := setActiveTimer_frame h
    exact ⟨by rw [h1]; exact hd, h2⟩
  · simp only [pure, Except.pure, Except.ok.injEq] at h
    rw [← h]
    exact ⟨hd, rfl⟩
  · simp only [pure, Except.pure, Except.ok.injEq] at h
    rw [← h]
    simp only [handle_fov_effect, displayEffect, Mix_Volume]
    split
    · exact ⟨hd, rfl⟩
    · exact ⟨hd, rfl⟩
  · simp only [pure, Except.pure, Except.ok.injEq] at h
    rw [← h]
    exact ⟨hd, rfl⟩
  · simp only [pure, Except.pure, Except.ok.injEq] at h
    rw [← h]
    exact ⟨rfl, rfl⟩
  · simp only [pure, Except.pure, Except.ok.injEq] at h
    rw [← h]
    exact ⟨hd, rfl⟩

theorem dispatch_attack_delay {G : Glm} {K : Constants} {id : CYST_EFFECT_ID} {s s' : Game}
    (hid : id ≠ DAMAGE) (h : dispatch G K id s = .ok s')
    (hd : s.weapon.attack_delay = 99999) :
    s'.weapon.attack_delay = 99999 ∧
      s'.effects.map (fun e => (e.id, e.type)) = s.effects.map (fun e => (e.id, e.type)) := by
  simp only [dispatch, bind, Except.bind] at h
  cases hs : setIsActive s.effects id true with
  | error err => simp [hs] at h
  | ok effects =>
    simp only [hs] at h
    cases hr : run_handler G K id { s with effects := effects } with
    | error err => simp [hr] at h
    | ok s2 =>
      simp only [hr] at h
      obtain ⟨played, hp⟩ := playSound_spec h
      obtain ⟨h1, h2⟩ := run_handler_attack_delay hid hr hd
      rw [hp]
      exact ⟨h1, h2.trans (setIsActive_spec hs).2.2⟩

theorem Callback.run_weapon {K : Constants} {cb : Callback} {s s' : Game}
    (hcb : cb.resets_attack_delay = false) (h : cb.run K s = .ok s') :
    s'.weapon = s.weapon := by
  cases cb with
  | damage_restore a b c d => simp [Callback.resets_attack_delay] at hcb
  | no_attack_restore c => simp [Callback.resets_attack_delay] at hcb
  | slow_restore a b =>
    simp only [Callback.run, bind, Except.bind] at h
    cases hs : setIsActive s.effects SLOW false with
    | error err => simp [hs] at h
    | ok effects =>
      simp only [hs, pure, Except.pure, Except.ok.injEq] at h
      rw [← h]
  | fov_restore v =>
    simp only [Callback.run, bind, Except.bind] at h
    have hw : (Mix_Volume v { s with limit_fov := false }).weapon = s.weapon := by
      simp only [Mix_Volume]; split <;> rfl
    cases hs : setIsActive (Mix_Volume v { s with limit_fov := false }).effects FOV false with
    | error err => simp [hs] at h
    | ok effects =>
      simp only [hs, pure, Except.pure, Except.ok.injEq] at h
      rw [← h]
      exact hw
  | direction_restore =>
    simp only [Callback.run, bind, Except.bind] at h
    cases hs : setIsActive s.effects DIRECTION false with
    | error err => simp [hs] at h
    | ok effects =>
      simp only [hs, pure, Except.pure, Except.ok.injEq] at h
      rw [← h]
  | set_inactive id =>
    simp only [Callback.run, bind, Except.bind] at h
    cases hs : setIsActive s.effects id false with
    | error err => simp [hs] at h
    | ok effects =>
      simp only [hs, pure, Except.pure, Except.ok.injEq] at h
      rw [← h]

theorem Action.run_attack_delay {G : Glm} {K : Constants} {a : Action} {s s' : Game}
    (hq : a.touches_attack_delay K s = false) (h : a.run G K s = .ok s')
    (hd : s.weapon.attack_delay = 99999) :
    s'.weapon.attack_delay = 99999 ∧
      s'.effects.map (fun e => (e.id, e.type)) = s.effects.map (fun e => (e.id, e.type)) := by
  cases a with
  | apply rng health =>
    simp only [Action.run, apply_random_effect, bind, Except.bind] at h
    simp only [Action.touches_attack_delay] at hq
    cases hs : select_effect K rng { s with health := health } with
    | error err => simp [hs] at h
    | ok res =>
      obtain ⟨s1, r⟩ := res
      simp only [hs] at h hq
      obtain ⟨effects, events, played, h1, h2⟩ := select_effect_frame hs
      have hd1 : s1.weapon.attack_delay = 99999 := by rw [h1]; exact hd
      have hm1 : s1.effects.map (fun e => (e.id, e.type)) =
          s.effects.map (fun e => (e.id, e.type)) := by rw [h1]; exact h2
      cases r with
      | none =>
        simp only [pure, Except.pure, Except.ok.injEq] at h
        rw [← h]
        exact ⟨hd1, hm1⟩
      | some id =>
        simp only at h
        have hid : id ≠ DAMAGE := by simpa using hq
        obtain ⟨h3, h4⟩ := dispatch_attack_delay hid h hd1
        exact ⟨h3, h4.trans hm1⟩
  | expire i =>
    simp only [Action.run, Cytotoxic.expire] at h
    simp only [Action.touches_attack_delay] at hq
    cases hget : s.timedEvents[i]? with
    | none => simp [hget] at h
    | some ev =>
      simp only [hget, bind, Except.bind] at h hq
      cases hr : ev.callback.run K s with
      | error err => simp [hr] at h
      | ok s2 =>
        simp only [hr, pure, Except.pure, Except.ok.injEq] at h
        rw [← h]
        have hw := Callback.run_weapon hq hr
        exact ⟨by show s2.weapon.attack_delay = 99999; rw [hw]; exact hd,
          (Callback.run_spec hr).1.2.2⟩

theorem undisturbed_prefixes {G : Glm} {K : Constants} (acts : List Action) {s s' : Game}
    (hrun : run_actions G K acts s = .ok s') (hq : undisturbed G K acts s = true)
    (hd : s.weapon.attack_delay = 99999) :
    (∀ before later, acts = before ++ later →
      ∃ mid, run_actions G K before s = .ok mid ∧ mid.weapon.attack_delay = 99999) ∧
      s'.effects.map (fun e => (e.id, e.type)) = s.effects.map (fun e => (e.id, e.type)) := by
  induction acts generalizing s with
  | nil =>
    simp only [run_actions, Except.ok.injEq] at hrun
    rw [← hrun]
    refine ⟨?_, rfl⟩
    intro before later hsplit
    have hb : before = [] := (List.append_eq_nil.1 hsplit.symm).1
    rw [hb]
    exact ⟨s, rfl, hd⟩
  | cons a rest ih =>
    simp only [run_actions] at hrun
    simp only [undisturbed, Bool.and_eq_true, Bool.not_eq_true'] at hq
    cases ha : a.run G K s with
    | error err => simp [ha] at hrun
    | ok s1 =>
      simp only [ha] at hrun hq
      obtain ⟨h1, h2⟩ := Action.run_attack_delay hq.1 ha hd
      obtain ⟨h3, h4⟩ := ih hrun hq.2 h1
      refine ⟨?_, h4.trans h2⟩
      intro before later hsplit
      cases before with
      | nil => exact ⟨s, rfl, hd⟩
      | cons b before' =>
        simp only [List.cons_append, List.cons.injEq] at hsplit
        obtain ⟨mid, hm1, hm2⟩ := h3 before' later hsplit.2
        refine ⟨mid, ?_, hm2⟩
        rw [← hsplit.1]
        simp only [run_actions, ha]
        exact hm1

theorem dispatch_NO_ATTACK_spec {G : Glm} {K : Constants} {s0 s : Game}
    (h : dispatch G K NO_ATTACK s0 = .ok s) :
    s.weapon.attack_delay = 99999 ∧
      (⟨K.NO_ATTACK_TIME, .no_attack_restore (s0.soundChunks "player_shoot_1")⟩ : TimedEvent) ∈
        s.timedEvents ∧
      ∃ e, getEffect s.effects NO_ATTACK = .ok e := by
  have hf := (dispatch_spec (by decide) h).1
  obtain ⟨⟨e, _, he⟩, _, _⟩ := hf
  simp only [dispatch, bind, Except.bind] at h
  cases hs : setIsActive s0.effects NO_ATTACK true with
  | error err => simp [hs] at h
  | ok effects =>
    simp only [hs] at h
    have hr : run_handler G K NO_ATTACK { s0 with effects := effects } =
        .ok (handle_no_attack_effect K { s0 with effects := effects }) := by
      simp [run_handler, pure, Except.pure]
    simp only [hr] at h
    obtain ⟨played, hp⟩ := playSound_spec h
    subst hp
    refine ⟨rfl, ?_, _, he⟩
    simp [handle_no_attack_effect, displayEffect]

/-! ## Claims -/

/-- C1: whenever `apply_random_effect` selects an effect id, that is reaches
the point where it marks the id active and runs its handler, the `is_active`
flag of that id is false in the state in which it is marked; the call then
continues as the dispatch of that id on that state. -/
theorem C1_selected_id_was_inactive (G : Glm) (K : Constants) (rng : Rng) (s s1 : Game)
    (id : CYST_EFFECT_ID) (h : select_effect K rng s = .ok (s1, some id)) :
    (∃ e, getEffect s1.effects id = .ok e ∧ e.is_active = false) ∧
      apply_random_effect G K rng s = dispatch G K id s1 := by
  obtain ⟨category, _, hl⟩ := select_effect_some K rng s s1 id h
  refine ⟨rejection_loop_inactive _ _ _ _ hl, ?_⟩
  simp [apply_random_effect, h, bind, Except.bind]

theorem C1_selected_id_was_inactive_witness :
    select_effect K0 ⟨1 / 4, [0]⟩ game0 = .ok (game0, some DAMAGE) ∧
      ((∃ e, getEffect game0.effects DAMAGE = .ok e ∧ e.is_active = false) ∧
        apply_random_effect G0 K0 ⟨1 / 4, [0]⟩ game0 = dispatch G0 K0 DAMAGE game0) := by
  have h : select_effect K0 ⟨1 / 4, [0]⟩ game0 = .ok (game0, some DAMAGE) := by
    norm_num [select_effect, before_loop, heal_precheck, game0, table0, K0, bind, Except.bind,
      pure, Except.pure, countActivePositive, rejection_loop, draw_offset, getEffect]
  exact ⟨h, C1_selected_id_was_inactive G0 K0 _ _ _ _ h⟩

/-- C2: when every effect of the category the uniform draw picks is already
active at the call, `apply_random_effect` selects no id and runs no handler,
and the state it returns differs from the state at the call only by the
"cyst_empty" chunk added to the played sounds: no `is_active` flag, timed
event, health, weapon, motion or screen value changes. -/
theorem C2_exhausted_category_only_empty_cue (G : Glm) (K : Constants) (rng : Rng) (s : Game)
    (category : EFFECT_TYPE) (hT : TableLayout K s.effects) (hH : HEAL < K.cyst_neg_start)
    (hpick : rng.prob ≤ K.POS_PROB ↔ category = POSITIVE)
    (hall : ∀ e ∈ s.effects, e.type = category → e.is_active = true) :
    select_effect K rng s =
        .ok ({ s with played := s.played ++ [s.soundChunks "cyst_empty"] }, none) ∧
      apply_random_effect G K rng s =
        .ok { s with played := s.played ++ [s.soundChunks "cyst_empty"] } := by
  have hb : before_loop K rng s =
      .ok (.early_return { s with played := s.played ++ [s.soundChunks "cyst_empty"] }) := by
    unfold before_loop
    cases category with
    | POSITIVE =>
      have hp : rng.prob ≤ K.POS_PROB := hpick.2 rfl
      obtain ⟨heal, hheal⟩ := hT.getEffect_ok (Nat.lt_of_lt_of_le hH hT.2.2)
      have hact : heal.is_active = true :=
        hall heal (getEffect_mem hheal).1 ((hT.getEffect_lt hheal).2.2 hH)
      have hpre : heal_precheck K s = .ok s := by
        simp [heal_precheck, hheal, bind, Except.bind, hact, pure, Except.pure]
      have hc : countActivePositive s.effects ≥ K.cyst_neg_start :=
        Nat.le_of_eq (countActivePositive_of_all hT hall).symm
      rw [if_pos hp]
      simp only [bind, Except.bind, hpre]
      rw [if_pos hc, playSound_EFFECT_COUNT]
      rfl
    | NEGATIVE =>
      have hp : ¬ rng.prob ≤ K.POS_PROB := fun h => by simpa using hpick.1 h
      have hc : countActiveNegative s.effects ≥ K.cyst_effect_count - K.cyst_neg_start :=
        Nat.le_of_eq (countActiveNegative_of_all hT hall).symm
      rw [if_neg hp]
      simp only [bind, Except.bind]
      rw [if_pos hc, playSound_EFFECT_COUNT]
      rfl
  have hs : select_effect K rng s =
      .ok ({ s with played := s.played ++ [s.soundChunks "cyst_empty"] }, none) := by
    simp [select_effect, hb, bind, Except.bind, pure, Except.pure]
  exact ⟨hs, by simp [apply_random_effect, hs, bind, Except.bind, pure, Except.pure]⟩

theorem C2_exhausted_category_only_empty_cue_witness :
    select_effect K0 ⟨1 / 4, [0, 1, 2]⟩ game_pos_full =
        .ok ({ game_pos_full with
                played := game_pos_full.played ++ [game_pos_full.soundChunks "cyst_empty"] }, none) ∧
      apply_random_effect G0 K0 ⟨1 / 4, [0, 1, 2]⟩ game_pos_full =
        .ok { game_pos_full with
                played := game_pos_full.played ++ [game_pos_full.soundChunks "cyst_empty"] } :=
  C2_exhausted_category_only_empty_cue G0 K0 ⟨1 / 4, [0, 1, 2]⟩ game_pos_full POSITIVE
    (by decide) (by decide) (by norm_num [K0])
    (by simp [game_pos_full])

/-- C3: `handle_damage_effect` schedules exactly one timed event; running the
callback of that event right after the handler succeeds and leaves the
weapon's damage, bullet speed, size and color at their values before the
handler ran, its attack delay at the constant `ATTACK_DELAY`, and the
`DAMAGE` entry of the table inactive. -/
theorem C3_damage_then_reversal (K : Constants) (s : Game)
    (hD : ∃ e, getEffect s.effects DAMAGE = .ok e) :
    ∃ ev s2, (handle_damage_effect K s).timedEvents = s.timedEvents ++ [ev] ∧
      ev.callback.run K (handle_damage_effect K s) = .ok s2 ∧
      s2.weapon.damage = s.weapon.damage ∧
      s2.weapon.bullet_speed = s.weapon.bullet_speed ∧
      s2.weapon.size = s.weapon.size ∧
      s2.weapon.color = s.weapon.color ∧
      s2.weapon.attack_delay = K.ATTACK_DELAY ∧
      ∃ e, getEffect s2.effects DAMAGE = .ok e ∧ e.is_active = false := by
  obtain ⟨e, he⟩ := hD
  obtain ⟨effects, hset⟩ := setIsActive_of_getEffect false he
  obtain ⟨⟨e1, h1, h2⟩, _, _⟩ := setIsActive_spec hset
  refine ⟨⟨K.DAMAGE_EFFECT_TIME,
      .damage_restore s.weapon.damage s.weapon.bullet_speed s.weapon.size s.weapon.color⟩,
    { handle_damage_effect K s with
      weapon := { (handle_damage_effect K s).weapon with
        damage := s.weapon.damage, attack_delay := K.ATTACK_DELAY,
        bullet_speed := s.weapon.bullet_speed, size := s.weapon.size,
        color := s.weapon.color },
      effects := effects }, ?_, ?_, rfl, rfl, rfl, rfl, rfl, ?_⟩
  · simp [handle_damage_effect, displayEffect]
  · have hse : setIsActive (handle_damage_effect K s).effects DAMAGE false = .ok effects := hset
    simp [Callback.run, hse, bind, Except.bind, pure, Except.pure]
  · exact ⟨_, h2, rfl⟩

theorem C3_damage_then_reversal_witness :
    (∃ e, getEffect game0.effects DAMAGE = .ok e) ∧
    game0.weapon.attack_delay ≠ K0.ATTACK_DELAY ∧
    ∃ ev s2, (handle_damage_effect K0 game0).timedEvents = game0.timedEvents ++ [ev] ∧
      ev.callback.run K0 (handle_damage_effect K0 game0) = .ok s2 ∧
      s2.weapon.damage = game0.weapon.damage ∧
      s2.weapon.bullet_speed = game0.weapon.bullet_speed ∧
      s2.weapon.size = game0.weapon.size ∧
      s2.weapon.color = game0.weapon.color ∧
      s2.weapon.attack_delay = K0.ATTACK_DELAY ∧
      ∃ e, getEffect s2.effects DAMAGE = .ok e ∧ e.is_active = false :=
  ⟨⟨_, rfl⟩, by norm_num [game0, K0], C3_damage_then_reversal K0 game0 ⟨_, rfl⟩⟩

/-- C4: the code does not do what the claim says. With no death timer
pending, the health bar at current 50, target 0 and timer `T > 0`, running
`step` for `T` elapsed milliseconds in total (in one call or in several
calls of positive length) brings the timer to exactly 0, which the test
`timer_ms < 0` does not count as expired: no call ends in `restart_game()`,
the current percentage is still 50, and since the guard `timer_ms > 0` is
now false it stays 50 through every later frame. -/
theorem C4_exact_expiry_never_snaps (C : WorldConstants) (G : Glm) (T : ℚ) (w : World)
    (frames later : List Frame) (hT : 0 < T)
    (hpos : ∀ f ∈ frames, 0 < f.elapsed_ms)
    (hsum : (frames.map (fun f => f.elapsed_ms)).sum = T)
    (hd : w.deathTimers = [])
    (hc : w.playerHealthBar.currentHealthPercentage = 50)
    (ht : w.playerHealthBar.targetHealthPercentage = 0)
    (htm : w.playerHealthBar.timer_ms = T) :
    (∃ w1, run_frames C G frames w = .continued w1 ∧
      w1.playerHealthBar.currentHealthPercentage = 50 ∧ w1.playerHealthBar.timer_ms = 0) ∧
    (∃ w2, run_frames C G (frames ++ later) w = .continued w2 ∧
      w2.playerHealthBar.currentHealthPercentage = 50) := by
  have _ := hT
  obtain ⟨w1, h1, h2, h3, h4⟩ := run_frames_countdown C G frames w hpos hd hc
    (le_of_eq ht) (htm.trans hsum.symm)
  obtain ⟨w2, h5, h6⟩ := run_frames_frozen C G later w1 h2 h4
  refine ⟨⟨w1, h1, h3, h4⟩, w2, ?_, by rw [h6, h3]⟩
  rw [run_frames_append C G frames later w w1 h1]
  exact h5

theorem C4_exact_expiry_never_snaps_witness :
    (∃ w1, run_frames C0 G0 [⟨1000, keys0, ⟨0, 0⟩⟩] world0 = .continued w1 ∧
      w1.playerHealthBar.currentHealthPercentage = 50 ∧ w1.playerHealthBar.timer_ms = 0) ∧
    (∃ w2, run_frames C0 G0 ([⟨1000, keys0, ⟨0, 0⟩⟩] ++ [⟨16, keys0, ⟨0, 0⟩⟩, ⟨5000, keys0, ⟨0, 0⟩⟩])
        world0 = .continued w2 ∧
      w2.playerHealthBar.currentHealthPercentage = 50) :=
  C4_exact_expiry_never_snaps C0 G0 1000 world0 [⟨1000, keys0, ⟨0, 0⟩⟩]
    [⟨16, keys0, ⟨0, 0⟩⟩, ⟨5000, keys0, ⟨0, 0⟩⟩] (by norm_num) (by simp) (by simp)
    rfl rfl rfl rfl

/-- C5: for a `WITH_BOUNDARY` collision of an entity with position `p` and
velocity `v`, with `n = -normalize(p)`: when `dot(v, n) < 0` the handler
writes the velocity `0.95 * (v - 2 * dot(v, n) * n)` and clears
`allow_accel`; otherwise it changes nothing. With `normalize (1,0) = (1,0)`
the velocity `(10,0)` at position `(1,0)` becomes `0.95 * (-10,0)`.
`handle_collisions` handles the event this way on the state the earlier
events of the frame have left, hands the result to the later events and
clears the collisions; for a frame whose only event is this one, the world
it returns has the reflected velocity and `allow_accel = false` in the
outward case and differs from the world at entry only by the cleared
collisions otherwise. -/
theorem C5_boundary_reflection (G : Glm) (w : World) (pre post : List (Entity × Collision))
    (e other : Entity) :
    (Vec2.dot (w.motions e).velocity (Vec2.neg (G.normalize (w.motions e).position)) < 0 →
      ((handle_collision G w (e, ⟨.WITH_BOUNDARY, other⟩)).motions e).velocity =
          Vec2.smul (95 / 100)
            (Vec2.sub (w.motions e).velocity
              (Vec2.smul
                (2 * Vec2.dot (w.motions e).velocity
                  (Vec2.neg (G.normalize (w.motions e).position)))
                (Vec2.neg (G.normalize (w.motions e).position)))) ∧
        (handle_collision G w (e, ⟨.WITH_BOUNDARY, other⟩)).allow_accel = false) ∧
    (¬ Vec2.dot (w.motions e).velocity (Vec2.neg (G.normalize (w.motions e).position)) < 0 →
      handle_collision G w (e, ⟨.WITH_BOUNDARY, other⟩) = w) ∧
    (G.normalize ⟨1, 0⟩ = ⟨1, 0⟩ → (w.motions e).position = ⟨1, 0⟩ →
      (w.motions e).velocity = ⟨10, 0⟩ →
      ((handle_collision G w (e, ⟨.WITH_BOUNDARY, other⟩)).motions e).velocity =
        Vec2.smul (95 / 100) ⟨-10, 0⟩) ∧
    handle_collisions G { w with collisions := pre ++ (e, Collision.mk .WITH_BOUNDARY other) :: post } =
      { post.foldl (handle_collision G)
          (handle_collision G
            (pre.foldl (handle_collision G)
              { w with collisions := pre ++ (e, Collision.mk .WITH_BOUNDARY other) :: post })
            (e, Collision.mk .WITH_BOUNDARY other))
        with collisions := [] } ∧
    (Vec2.dot (w.motions e).velocity (Vec2.neg (G.normalize (w.motions e).position)) < 0 →
      ((handle_collisions G
          { w with collisions := [(e, Collision.mk .WITH_BOUNDARY other)] }).motions e).velocity =
          Vec2.smul (95 / 100)
            (Vec2.sub (w.motions e).velocity
              (Vec2.smul
                (2 * Vec2.dot (w.motions e).velocity
                  (Vec2.neg (G.normalize (w.motions e).position)))
                (Vec2.neg (G.normalize (w.motions e).position)))) ∧
        (handle_collisions G
          { w with collisions := [(e, Collision.mk .WITH_BOUNDARY other)] }).allow_accel = false ∧
        (handle_collisions G
          { w with collisions := [(e, Collision.mk .WITH_BOUNDARY other)] }).collisions = []) ∧
    (¬ Vec2.dot (w.motions e).velocity (Vec2.neg (G.normalize (w.motions e).position)) < 0 →
      handle_collisions G { w with collisions := [(e, Collision.mk .WITH_BOUNDARY other)] } =
        { w with collisions := [] }) ∧
    (G.normalize ⟨1, 0⟩ = ⟨1, 0⟩ → (w.motions e).position = ⟨1, 0⟩ →
      (w.motions e).velocity = ⟨10, 0⟩ →
      ((handle_collisions G
          { w with collisions := [(e, Collision.mk .WITH_BOUNDARY other)] }).motions e).velocity =
        Vec2.smul (95 / 100) ⟨-10, 0⟩) := by
  have hex : G.normalize ⟨1, 0⟩ = ⟨1, 0⟩ → (w.motions e).position = ⟨1, 0⟩ →
      (w.motions e).velocity = ⟨10, 0⟩ →
      Vec2.dot (w.motions e).velocity (Vec2.neg (G.normalize (w.motions e).position)) < 0 ∧
      Vec2.smul (95 / 100)
            (Vec2.sub (w.motions e).velocity
              (Vec2.smul
                (2 * Vec2.dot (w.motions e).velocity
                  (Vec2.neg (G.normalize (w.motions e).position)))
                (Vec2.neg (G.normalize (w.motions e).position)))) =
        Vec2.smul (95 / 100) ⟨-10, 0⟩ := by
    intro hn hp hv
    rw [hp, hv, hn]
    constructor
    · norm_num [Vec2.dot, Vec2.neg]
    · norm_num [Vec2.dot, Vec2.neg, Vec2.smul, Vec2.sub]
  have hout : Vec2.dot (w.motions e).velocity (Vec2.neg (G.normalize (w.motions e).position)) < 0 →
      ((handle_collision G w (e, ⟨.WITH_BOUNDARY, other⟩)).motions e).velocity =
          Vec2.smul (95 / 100)
            (Vec2.sub (w.motions e).velocity
              (Vec2.smul
                (2 * Vec2.dot (w.motions e).velocity
                  (Vec2.neg (G.normalize (w.motions e).position)))
                (Vec2.neg (G.normalize (w.motions e).position)))) ∧
        (handle_collision G w (e, ⟨.WITH_BOUNDARY, other⟩)).allow_accel = false := by
    intro h
    simp [handle_collision, h, set_velocity]
  have hone : Vec2.dot (w.motions e).velocity (Vec2.neg (G.normalize (w.motions e).position)) < 0 →
      ((handle_collisions G
          { w with collisions := [(e, Collision.mk .WITH_BOUNDARY other)] }).motions e).velocity =
          Vec2.smul (95 / 100)
            (Vec2.sub (w.motions e).velocity
              (Vec2.smul
                (2 * Vec2.dot (w.motions e).velocity
                  (Vec2.neg (G.normalize (w.motions e).position)))
                (Vec2.neg (G.normalize (w.motions e).position)))) ∧
        (handle_collisions G
          { w with collisions := [(e, Collision.mk .WITH_BOUNDARY other)] }).allow_accel = false ∧
        (handle_collisions G
          { w with collisions := [(e, Collision.mk .WITH_BOUNDARY other)] }).collisions = [] := by
    intro h
    simp [handle_collisions, handle_collision, h, set_velocity]
  refine ⟨hout, ?_, ?_, ?_, hone, ?_, ?_⟩
  · intro h
    simp [handle_collision, h]
  · intro hn hp hv
    obtain ⟨h1, h2⟩ := hex hn hp hv
    rw [(hout h1).1, h2]
  · simp [handle_collisions, List.foldl_append]
  · intro h
    simp [handle_collisions, handle_collision, h]
  · intro hn hp hv
    obtain ⟨h1, h2⟩ := hex hn hp hv
    rw [(hone h1).1, h2]

theorem C5_boundary_reflection_witness :
    G0.normalize ⟨1, 0⟩ = ⟨1, 0⟩ ∧ (world1.motions 0).position = ⟨1, 0⟩ ∧
      (world1.motions 0).velocity = ⟨10, 0⟩ ∧
      ((handle_collision G0 world1 (0, ⟨.WITH_BOUNDARY, 0⟩)).motions 0).velocity =
        Vec2.smul (95 / 100) ⟨-10, 0⟩ ∧
      ((handle_collisions G0
          { world1 with collisions := [(0, Collision.mk .WITH_BOUNDARY 0)] }).motions 0).velocity =
        Vec2.smul (95 / 100) ⟨-10, 0⟩ :=
  ⟨rfl, rfl, rfl, (C5_boundary_reflection G0 world1 [] [] 0 0).2.2.1 rfl rfl rfl,
    (C5_boundary_reflection G0 world1 [] [] 0 0).2.2.2.2.2.2 rfl rfl rfl⟩

/-- C6, the claim as stated fails: in `world1` the second event makes enemy 1
follow enemy 0, but after `handle_collisions` the velocity of enemy 1 is not
the velocity enemy 0 had when `handle_collisions` was entered, because the
first event had already overwritten the velocity of enemy 0. -/
theorem C6_entry_velocity_counterexample :
    (1, (⟨.ENEMY_WITH_ENEMY, 0⟩ : Collision)) ∈ world1.collisions ∧
      ((handle_collisions G0 world1).motions 1).velocity ≠ (world1.motions 0).velocity := by
  refine ⟨by simp [world1], ?_⟩
  simp [handle_collisions, handle_collision, set_velocity, world1, world0]

/-- C6 as amended: for an `ENEMY_WITH_ENEMY` event `(e, other)` anywhere in the
list of one frame, right after the event is processed the velocity of `e`
equals the velocity `other` had right before the event was processed (that
is after the earlier events of the frame), the event leaves the velocity of
`other` as it was, and `handle_collisions` returns what the later events make
of that state. -/
theorem C6_enemy_follows_other (G : Glm) (w : World) (pre post : List (Entity × Collision))
    (e other : Entity) :
    (((pre ++ [(e, Collision.mk .ENEMY_WITH_ENEMY other)]).foldl (handle_collision G) w).motions e).velocity =
        ((pre.foldl (handle_collision G) w).motions other).velocity ∧
      (((pre ++ [(e, Collision.mk .ENEMY_WITH_ENEMY other)]).foldl (handle_collision G) w).motions
          other).velocity =
        ((pre.foldl (handle_collision G) w).motions other).velocity ∧
      handle_collisions G { w with collisions := pre ++ (e, Collision.mk .ENEMY_WITH_ENEMY other) :: post } =
        { post.foldl (handle_collision G)
            ((pre ++ [(e, Collision.mk .ENEMY_WITH_ENEMY other)]).foldl (handle_collision G)
              { w with collisions := pre ++ (e, Collision.mk .ENEMY_WITH_ENEMY other) :: post })
          with collisions := [] } := by
  refine ⟨?_, ?_, ?_⟩
  · simp [List.foldl_append, handle_collision, set_velocity]
  · simp only [List.foldl_append, List.foldl_cons, List.foldl_nil, handle_collision, set_velocity]
    by_cases h : other = e
    · simp [h]
    · simp [h]
  · simp [handle_collisions, List.foldl_append]

/-- C7: when `step` does not end in `restart_game()`, the darken factor it
leaves is `1 - t / 3000` for `t` the minimum of 3000, of every death timer
after this frame's decrement and, when the health animation is running with
a target of at most 0, of the health bar timer after its decrement; `t`
lies in `[0, 3000]` and the factor in `[0, 1]`, with `t = 0` giving 1 and
`t = 3000` giving 0. -/
theorem C7_darken_factor (C : WorldConstants) (G : Glm) (elapsed_ms : ℚ) (w w' : World)
    (h : step C G elapsed_ms w = .continued w') :
    w'.screen_darken_factor = 1 - min_remaining_timer elapsed_ms w / 3000 ∧
      0 ≤ min_remaining_timer elapsed_ms w ∧ min_remaining_timer elapsed_ms w ≤ 3000 ∧
      0 ≤ w'.screen_darken_factor ∧ w'.screen_darken_factor ≤ 1 ∧
      (min_remaining_timer elapsed_ms w = 0 → w'.screen_darken_factor = 1) ∧
      (min_remaining_timer elapsed_ms w = 3000 → w'.screen_darken_factor = 0) := by
  have key : w'.screen_darken_factor = 1 - min_remaining_timer elapsed_ms w / 3000 ∧
      0 ≤ min_remaining_timer elapsed_ms w ∧ min_remaining_timer elapsed_ms w ≤ 3000 := by
    unfold step at h
    cases hloop : death_timer_loop elapsed_ms w.deathTimers 3000 with
    | expired r => simp [hloop] at h
    | done timers m =>
      obtain ⟨hm, hnn⟩ := death_timer_loop_done _ _ _ _ _ hloop
      have hm0 : 0 ≤ m := by
        rw [hm]
        exact foldl_min_nonneg _ _ (by norm_num) hnn
      have hm1 : m ≤ 3000 := by
        rw [hm]
        exact foldl_min_le _ _
      simp only [hloop] at h
      by_cases hrun : w.playerHealthBar.currentHealthPercentage ≠
          w.playerHealthBar.targetHealthPercentage ∧ w.playerHealthBar.timer_ms > 0
      · rw [if_pos hrun] at h
        by_cases hexp : w.playerHealthBar.timer_ms - elapsed_ms < 0
        · simp only [hexp, if_true] at h
          by_cases htgt : w.playerHealthBar.targetHealthPercentage ≤ 0
          · simp [htgt] at h
          · simp only [htgt, if_false, and_false, StepResult.continued.injEq] at h
            subst h
            rw [(step_tail_frame C G _).2.1]
            have hspec : min_remaining_timer elapsed_ms w = m := by
              simp only [min_remaining_timer]
              rw [if_neg (fun hc => htgt hc.2), ← hm]
            rw [hspec]
            exact ⟨rfl, hm0, hm1⟩
        · simp only [hexp, if_false] at h
          by_cases hcur : w.playerHealthBar.currentHealthPercentage ≤ 0
          · simp [hcur] at h
          · simp only [hcur, if_false, StepResult.continued.injEq] at h
            subst h
            rw [(step_tail_frame C G _).2.1]
            have hge : 0 ≤ w.playerHealthBar.timer_ms - elapsed_ms := le_of_not_lt hexp
            by_cases htgt : w.playerHealthBar.targetHealthPercentage ≤ 0
            · have hspec : min_remaining_timer elapsed_ms w =
                  min m (w.playerHealthBar.timer_ms - elapsed_ms) := by
                simp only [min_remaining_timer]
                rw [if_pos ⟨hrun, htgt⟩, ← hm]
              rw [hspec]
              have hmin : (if w.playerHealthBar.timer_ms - elapsed_ms < m ∧
                  w.playerHealthBar.targetHealthPercentage ≤ 0 then
                  w.playerHealthBar.timer_ms - elapsed_ms else m) =
                  min m (w.playerHealthBar.timer_ms - elapsed_ms) := by
                rw [min_def]
                by_cases hlt : w.playerHealthBar.timer_ms - elapsed_ms < m
                · rw [if_pos ⟨hlt, htgt⟩, if_neg (not_le.2 hlt)]
                · rw [if_neg (fun hc => hlt hc.1), if_pos (not_lt.1 hlt)]
              exact ⟨by rw [← hmin], le_min hm0 hge, le_trans (min_le_left _ _) hm1⟩
            · have hspec : min_remaining_timer elapsed_ms w = m := by
                simp only [min_remaining_timer]
                rw [if_neg (fun hc => htgt hc.2), ← hm]
              rw [hspec, if_neg (fun hc => htgt hc.2)]
              exact ⟨rfl, hm0, hm1⟩
      · rw [if_neg hrun] at h
        simp only [StepResult.continued.injEq] at h
        subst h
        rw [(step_tail_frame C G _).2.1]
        have hspec : min_remaining_timer elapsed_ms w = m := by
          simp only [min_remaining_timer]
          rw [if_neg (fun hc => hrun hc.1), ← hm]
        rw [hspec]
        exact ⟨rfl, hm0, hm1⟩
  obtain ⟨k1, k2, k3⟩ := key
  refine ⟨k1, k2, k3, ?_, ?_, ?_, ?_⟩
  · rw [k1]; linarith
  · rw [k1]; linarith
  · intro h0; rw [k1, h0]; norm_num
  · intro h0; rw [k1, h0]; norm_num

theorem C7_darken_factor_witness :
    (step C0 G0 16 world2 = .continued (step_tail C0 G0
        { world2 with deathTimers := [⟨5, 1484⟩, ⟨6, 0⟩], screen_darken_factor := 1 })) ∧
      min_remaining_timer 16 world2 = 0 ∧
      (step_tail C0 G0
        { world2 with deathTimers := [⟨5, 1484⟩, ⟨6, 0⟩],
                      screen_darken_factor := 1 }).screen_darken_factor = 1 := by
  have h : step C0 G0 16 world2 = .continued (step_tail C0 G0
      { world2 with deathTimers := [⟨5, 1484⟩, ⟨6, 0⟩], screen_darken_factor := 1 }) := by
    norm_num [step, death_timer_loop, world2, world0, step_tail]
  have hc := C7_darken_factor C0 G0 16 world2 _ h
  have hm : min_remaining_timer 16 world2 = 0 := by
    norm_num [min_remaining_timer, world2, world0]
  exact ⟨h, hm, hc.2.2.2.2.2.1 hm⟩

/-- C8: a call of `apply_random_effect` made while the player's health is at
or above `MAX_HEALTH` never selects `HEAL`, so `handle_heal_effect` is not
run, and the state it returns has the health of the state at the call. -/
theorem C8_no_heal_at_full_health (G : Glm) (K : Constants) (rng : Rng) (s : Game)
    (hH : HEAL < K.cyst_neg_start) (hfull : s.health ≥ K.MAX_HEALTH) :
    (∀ s1 id, select_effect K rng s = .ok (s1, some id) → id ≠ HEAL) ∧
      (∀ s', apply_random_effect G K rng s = .ok s' → s'.health = s.health) := by
  have hsel : ∀ s1 id, select_effect K rng s = .ok (s1, some id) → id ≠ HEAL := by
    intro s1 id h
    obtain ⟨category, hb, hl⟩ := select_effect_some K rng s s1 id h
    rcases before_loop_enter hb with ⟨_, _, hpre, _⟩ | ⟨_, hcat, _, _⟩
    · obtain ⟨e, he, hact⟩ := heal_precheck_full hfull hpre
      obtain ⟨e', he', hinact⟩ := rejection_loop_inactive _ _ _ _ hl
      intro hid
      rw [hid, he] at he'
      simp only [Except.ok.injEq] at he'
      rw [he', hinact] at hact
      exact Bool.false_ne_true hact
    · have hge := rejection_loop_ge _ _ _ _ hl
      rw [hcat] at hge
      simp only [draw_offset] at hge
      intro hid
      rw [hid] at hge
      exact absurd hH (Nat.not_lt.2 hge)
  refine ⟨hsel, ?_⟩
  intro s' h
  simp only [apply_random_effect, bind, Except.bind] at h
  cases hs : select_effect K rng s with
  | error err => simp [hs] at h
  | ok res =>
    obtain ⟨s1, r⟩ := res
    simp only [hs] at h
    have h1 := select_effect_health hs
    cases r with
    | none =>
      simp only [pure, Except.pure, Except.ok.injEq] at h
      rw [← h, h1]
    | some id =>
      simp only at h
      rw [dispatch_health (hsel s1 id hs) h, h1]

theorem C8_no_heal_at_full_health_witness :
    select_effect K0 ⟨1 / 4, [1, 0]⟩ { game0 with health := 100 } =
        .ok ({ game0 with health := 100,
                          effects := [⟨DAMAGE, POSITIVE, false⟩, ⟨HEAL, POSITIVE, true⟩,
                            ⟨CLEAR_SCREEN, POSITIVE, false⟩, ⟨SLOW, NEGATIVE, false⟩,
                            ⟨FOV, NEGATIVE, false⟩, ⟨DIRECTION, NEGATIVE, false⟩,
                            ⟨NO_ATTACK, NEGATIVE, false⟩],
                          timedEvents := [⟨2000, .set_inactive HEAL⟩] }, some DAMAGE) ∧
      (∀ s1 id, select_effect K0 ⟨1 / 4, [1, 0]⟩ { game0 with health := 100 } = .ok (s1, some id) →
        id ≠ HEAL) ∧
      (∀ s', apply_random_effect G0 K0 ⟨1 / 4, [1, 0]⟩ { game0 with health := 100 } = .ok s' →
        s'.health = ({ game0 with health := 100 } : Game).health) := by
  refine ⟨?_, C8_no_heal_at_full_health G0 K0 ⟨1 / 4, [1, 0]⟩ { game0 with health := 100 }
    (by decide) (by norm_num [game0, K0])⟩
  norm_num [select_effect, before_loop, heal_precheck, setActiveTimer, setIsActive, game0, table0,
    K0, bind, Except.bind, pure, Except.pure, countActivePositive, rejection_loop, draw_offset,
    getEffect, Except.map]

/-- C10: with the table laid out as a positive prefix of length
`cyst_neg_start` and a negative suffix, whenever `apply_random_effect`
reaches a `do ... while` loop (also right after the full-health check has
marked `HEAL` active), some id in the index range of the loop's category is
inactive in the state at loop entry, and a draw of that id makes the loop
exit with it. -/
theorem C10_loop_entry_has_inactive_id (K : Constants) (rng : Rng) (s s1 : Game)
    (category : EFFECT_TYPE) (hT : TableLayout K s.effects)
    (h : before_loop K rng s = .ok (.enter_loop s1 category)) :
    ∃ id e, in_category K category id ∧ getEffect s1.effects id = .ok e ∧
      e.is_active = false ∧
      rejection_loop s1.effects (draw_offset K category) [id - draw_offset K category] = .ok id := by
  rcases before_loop_enter h with ⟨_, hcat, hpre, hcount⟩ | ⟨_, hcat, hs1, hcount⟩
  · have hT1 := hT.heal_precheck hpre
    obtain ⟨e, he, hpos, hin⟩ := exists_inactive_positive hT1 hcount
    have hg := hT1.getEffect_self he
    refine ⟨e.id, e, ?_, hg, hin, ?_⟩
    · rw [hcat]
      exact (hT1.getEffect_lt hg).2.1 hpos
    · rw [hcat]
      simp [rejection_loop, draw_offset, hg, hin, bind, Except.bind, pure, Except.pure]
  · subst hs1
    obtain ⟨e, he, hneg, hin⟩ := exists_inactive_negative hT hcount
    have hg := hT.getEffect_self he
    have hlt := hT.getEffect_lt hg
    have hge : K.cyst_neg_start ≤ e.id := by
      by_contra hc
      have := hlt.2.2 (Nat.lt_of_not_ge hc)
      rw [hneg] at this
      exact EFFECT_TYPE.noConfusion this
    refine ⟨e.id, e, ?_, hg, hin, ?_⟩
    · rw [hcat]
      exact ⟨hge, hlt.1⟩
    · rw [hcat]
      simp [rejection_loop, draw_offset, Nat.sub_add_cancel hge, hg, hin, bind, Except.bind,
        pure, Except.pure]

theorem C10_loop_entry_has_inactive_id_witness :
    before_loop K0 ⟨1 / 4, []⟩ game_full = .ok (.enter_loop game_full_marked POSITIVE) ∧
      ∃ id e, in_category K0 POSITIVE id ∧
        getEffect game_full_marked.effects id = .ok e ∧ e.is_active = false ∧
        rejection_loop game_full_marked.effects (draw_offset K0 POSITIVE)
          [id - draw_offset K0 POSITIVE] = .ok id := by
  have h : before_loop K0 ⟨1 / 4, []⟩ game_full =
      .ok (.enter_loop game_full_marked POSITIVE) := by
    norm_num [before_loop, heal_precheck, setActiveTimer, setIsActive, game0, table0, game_full,
      game_full_marked, K0, bind, Except.bind, pure, Except.pure, countActivePositive, getEffect,
      Except.map]
  exact ⟨h, C10_loop_entry_has_inactive_id K0 _ _ _ _ (by decide) h⟩

/-- C9: in every state reached from a state with all effects inactive and an
empty timed-event queue by calls of `apply_random_effect` (any draws, any
health) and expiries of timed events, every effect id has at most one
pending reversal event: exactly one when its `is_active` flag is true and
none when it is false. The full-health check on `HEAL` is part of the calls. -/
theorem C9_one_pending_reversal_per_active_id (G : Glm) (K : Constants) (acts : List Action)
    (s0 s : Game) (hT : TableLayout K s0.effects) (hcount : K.cyst_effect_count ≤ EFFECT_COUNT)
    (hinit : ∀ e ∈ s0.effects, e.is_active = false) (hq : s0.timedEvents = [])
    (hrun : run_actions G K acts s0 = .ok s) :
    ∀ id, pending s id ≤ 1 ∧
      ∀ e, getEffect s.effects id = .ok e → pending s id = if e.is_active then 1 else 0 := by
  have hg := consistent_run_actions acts hcount ⟨hT, consistent_initial hinit hq⟩ hrun
  intro id
  have hc := hg.2 id
  simp only [active_flag] at hc
  refine ⟨?_, ?_⟩
  · rw [hc]
    cases getEffect s.effects id with
    | error err => exact Nat.zero_le _
    | ok e =>
      simp only
      split <;> omega
  · intro e he
    rw [hc, he]

theorem C9_one_pending_reversal_per_active_id_witness :
    run_actions G0 K0 [.apply ⟨1 / 4, [1, 0]⟩ 100, .expire 0] game0 = .ok game_after_run ∧
      ∀ id, pending game_after_run id ≤ 1 ∧
        ∀ e, getEffect game_after_run.effects id = .ok e →
          pending game_after_run id = if e.is_active then 1 else 0 := by
  have h : run_actions G0 K0 [.apply ⟨1 / 4, [1, 0]⟩ 100, .expire 0] game0 =
      .ok game_after_run := by
    norm_num [run_actions, Action.run, apply_random_effect, select_effect, before_loop,
      heal_precheck, setActiveTimer, setIsActive, game0, table0, K0, bind, Except.bind, pure,
      Except.pure, countActivePositive, rejection_loop, draw_offset, getEffect, Except.map,
      dispatch, run_handler, handle_damage_effect, displayEffect, playSound, Mix_PlayChannel,
      expire, Callback.run, game_after_run, Vec2.smul]
    decide
  exact ⟨h, C9_one_pending_reversal_per_active_id G0 K0 _ game0 _ (by decide) (by decide)
    (by simp [game0, table0]) rfl h⟩

/-- C11, the claim as stated fails: from `game0`, a call that dispatches
`DAMAGE` and a call that dispatches `NO_ATTACK` leave the attack delay at
99999 with `NO_ATTACK` active and its reversal pending; the expiry of the
timed event of `DAMAGE` then writes `ATTACK_DELAY` while `NO_ATTACK` is still
active and its own reversal is still pending. -/
theorem C11_damage_reversal_counterexample :
    (run_actions G0 K0 [.apply ⟨1 / 4, [0]⟩ 40, .apply ⟨3 / 4, [3]⟩ 40] game0).map no_attack_view =
        .ok (99999, 1, 1) ∧
      (run_actions G0 K0 [.apply ⟨1 / 4, [0]⟩ 40, .apply ⟨3 / 4, [3]⟩ 40, .expire 0]
          game0).map no_attack_view = .ok (K0.ATTACK_DELAY, 1, 1) ∧
      K0.ATTACK_DELAY ≠ 99999 := by
  refine ⟨?_, ?_, by norm_num [K0]⟩
  · norm_num [run_actions, Action.run, apply_random_effect, select_effect, before_loop,
      heal_precheck, setIsActive, game0, table0, K0, bind, Except.bind, pure,
      Except.pure, countActivePositive, countActiveNegative, rejection_loop, draw_offset,
      getEffect, Except.map, dispatch, run_handler, handle_damage_effect,
      handle_no_attack_effect, displayEffect, playSound, Mix_PlayChannel, no_attack_view,
      active_flag, pending, Callback.target, List.countP_cons, List.countP_nil, EFFECT_TYPE.positive_ne_negative,
      EFFECT_TYPE.negative_ne_positive]
  · norm_num [run_actions, Action.run, apply_random_effect, select_effect, before_loop,
      heal_precheck, setIsActive, game0, table0, K0, bind, Except.bind, pure,
      Except.pure, countActivePositive, countActiveNegative, rejection_loop, draw_offset,
      getEffect, Except.map, dispatch, run_handler, handle_damage_effect,
      handle_no_attack_effect, displayEffect, playSound, Mix_PlayChannel, no_attack_view,
      active_flag, pending, Callback.target, expire, Callback.run, List.countP_cons,
      List.countP_nil, EFFECT_TYPE.positive_ne_negative,
      EFFECT_TYPE.negative_ne_positive]

/-- C11 as amended: after `NO_ATTACK` is dispatched the attack delay is 99999
and the reversal of `NO_ATTACK` is scheduled with `NO_ATTACK_TIME`; through
every run of calls of `apply_random_effect` and expiries of timed events in
which no call dispatches `DAMAGE` and no expiry runs the reversal of `DAMAGE`
or of `NO_ATTACK`, the attack delay is still 99999 after every prefix of the
run; the reversal of `NO_ATTACK`, run at the end, succeeds and leaves the
attack delay at `ATTACK_DELAY`, the attack timer at 0 and the shoot sound as
it was before the activation. -/
theorem C11_attack_delay_held_without_damage (G : Glm) (K : Constants) (s0 s s' : Game)
    (acts : List Action) (hact : dispatch G K NO_ATTACK s0 = .ok s)
    (hrun : run_actions G K acts s = .ok s')
    (hq : undisturbed G K acts s = true) :
    s.weapon.attack_delay = 99999 ∧
      (⟨K.NO_ATTACK_TIME, .no_attack_restore (s0.soundChunks "player_shoot_1")⟩ : TimedEvent) ∈
        s.timedEvents ∧
      (∀ before later, acts = before ++ later →
        ∃ mid, run_actions G K before s = .ok mid ∧ mid.weapon.attack_delay = 99999) ∧
      s'.weapon.attack_delay = 99999 ∧
      ∃ s2, (Callback.no_attack_restore (s0.soundChunks "player_shoot_1")).run K s' = .ok s2 ∧
        s2.weapon.attack_delay = K.ATTACK_DELAY ∧ s2.weapon.attack_timer = 0 ∧
        s2.soundChunks "player_shoot_1" = s0.soundChunks "player_shoot_1" := by
  obtain ⟨h1, h2, e, he⟩ := dispatch_NO_ATTACK_spec hact
  obtain ⟨h3, h4⟩ := undisturbed_prefixes acts hrun hq h1
  have h5 : s'.weapon.attack_delay = 99999 := by
    obtain ⟨mid, hm1, hm2⟩ := h3 acts [] (List.append_nil acts).symm
    rw [hrun] at hm1
    simp only [Except.ok.injEq] at hm1
    rw [hm1]
    exact hm2
  refine ⟨h1, h2, h3, h5, ?_⟩
  have hmem : NO_ATTACK ∈ s'.effects.map (fun e => e.id) := by
    have hids := congrArg (List.map Prod.fst) h4
    simp only [List.map_map] at hids
    have hin : NO_ATTACK ∈ s.effects.map (fun e => e.id) :=
      List.mem_map.2 ⟨e, (getEffect_mem he).1, (getEffect_mem he).2⟩
    have hin2 : NO_ATTACK ∈ s.effects.map (Prod.fst ∘ fun e : Effect => (e.id, e.type)) := hin
    rw [← hids] at hin2
    exact hin2
  obtain ⟨e', he'⟩ := getEffect_of_mem hmem
  obtain ⟨effects, hset⟩ := setIsActive_of_getEffect false he'
  refine ⟨{ s' with
      weapon := { s'.weapon with attack_delay := K.ATTACK_DELAY, attack_timer := 0 },
      soundChunks := fun k =>
        if k = "player_shoot_1" then s0.soundChunks "player_shoot_1" else s'.soundChunks k,
      effects := effects }, ?_, rfl, rfl, ?_⟩
  · simp only [Callback.run, bind, Except.bind, hset, pure, Except.pure]
  · simp

theorem C11_attack_delay_held_without_damage_witness :
    dispatch G0 K0 NO_ATTACK game0 = .ok game_no_attack ∧
      run_actions G0 K0 [.apply ⟨3 / 4, [3, 0]⟩ 40, .expire 1] game_no_attack =
        .ok game_no_attack_later ∧
      undisturbed G0 K0 [.apply ⟨3 / 4, [3, 0]⟩ 40, .expire 1] game_no_attack = true ∧
      game_no_attack_later.weapon.attack_delay = 99999 ∧
      ∃ s2, (Callback.no_attack_restore (game0.soundChunks "player_shoot_1")).run K0
          game_no_attack_later = .ok s2 ∧
        s2.weapon.attack_delay = K0.ATTACK_DELAY ∧ s2.weapon.attack_timer = 0 ∧
        s2.soundChunks "player_shoot_1" = game0.soundChunks "player_shoot_1" := by
  have hact : dispatch G0 K0 NO_ATTACK game0 = .ok game_no_attack := by
    norm_num [dispatch, run_handler, handle_no_attack_effect, displayEffect, playSound,
      Mix_PlayChannel, setIsActive, getEffect, game0, table0, K0, game_no_attack, bind,
      Except.bind, pure, Except.pure, Except.map, EFFECT_TYPE.positive_ne_negative,
      EFFECT_TYPE.negative_ne_positive]
    decide
  have hrun : run_actions G0 K0 [.apply ⟨3 / 4, [3, 0]⟩ 40, .expire 1] game_no_attack =
      .ok game_no_attack_later := by
    norm_num [run_actions, Action.run, apply_random_effect, select_effect, before_loop,
      setIsActive, game0, table0, K0, game_no_attack, game_no_attack_later, bind, Except.bind,
      pure, Except.pure, countActiveNegative, rejection_loop, draw_offset, getEffect,
      Except.map, dispatch, run_handler, handle_slow_effect, displayEffect, playSound,
      Mix_PlayChannel, expire, Callback.run, List.countP_cons, List.countP_nil,
      EFFECT_TYPE.positive_ne_negative, EFFECT_TYPE.negative_ne_positive]
    decide
  have hq : undisturbed G0 K0 [.apply ⟨3 / 4, [3, 0]⟩ 40, .expire 1] game_no_attack = true := by
    norm_num [undisturbed, Action.touches_attack_delay, Callback.resets_attack_delay,
      run_actions, Action.run, apply_random_effect, select_effect, before_loop,
      setIsActive, game0, table0, K0, game_no_attack, bind, Except.bind,
      pure, Except.pure, countActiveNegative, rejection_loop, draw_offset, getEffect,
      Except.map, dispatch, run_handler, handle_slow_effect, displayEffect, playSound,
      Mix_PlayChannel, expire, Callback.run, List.countP_cons, List.countP_nil,
      EFFECT_TYPE.positive_ne_negative, EFFECT_TYPE.negative_ne_positive]
  have hc := C11_attack_delay_held_without_damage G0 K0 game0 game_no_attack
    game_no_attack_later _ hact hrun hq
  exact ⟨hact, hrun, hq, hc.2.2.2.1, hc.2.2.2.2⟩

end Cytotoxic
